import Mathlib

/-!
# go_chi_rest: upload / download handlers of `main.go`

A shallow embedding of the streaming core of `src/main.go`
(`getFileContentType`, `getFileSize`, `fileUpload`, `fileDownload`) together
with the pieces of the Go standard library these functions call
(`os.File`, `io.CopyBuffer`, `http.ResponseWriter`, `http.Error`).

Conventions of the embedding

* a byte is a `Nat`; a byte slice is a `List Nat`; `make([]byte, n)` is
  `List.replicate n 0`;
* a Go `error` is an `Option Err` (`none` is `nil`); `Err.eof` is the value
  `io.EOF`, every other error is `Err.msg text`, and `Err.Error` is the
  method `Error()`;
* every handle carries a fault plan (`Faults`) that decides which of its
  operations fail, so that failing runs are part of the model;
* `http.DetectContentType` is a parameter `detect` of the functions that
  call it; `detectTextOrBinary` embeds its last two rules, for evaluations;
* the response writer records what the handler does to it, the way
  `httptest.ResponseRecorder` does: the first `WriteHeader`, explicit or
  implied by a `Write`, fixes the status and a snapshot of the headers;
* `io.CopyBuffer` is its generic read/write loop; the `ReaderFrom` /
  `WriterTo` shortcuts the library may take move the same bytes;
* a Go `defer` is the function `deferredClose` applied to the outcome of
  the code that follows the `defer` statement, so the closes run last
  registered first, on every exit path;
* the store is the flat namespace of the working directory, a list of
  named contents; writes of `os.File` reach it unbuffered; `.`, `..` and
  the sub-directories the environment lists are directories: `os.Open`
  opens them, reading them fails, `os.Create` refuses them.
-/

namespace GoChiRest

/-! ## Constants (main.go:15-19) -/

/-- Constant `kChunkSize` (main.go:16). -/
def kChunkSize : Nat := 32000

/-- Constant `kContentTypeSampleSize` (main.go:17). -/
def kContentTypeSampleSize : Nat := 512

/-- Constant `kEmptyString` (main.go:18). -/
def kEmptyString : String := ""

/-- A Go error value: `io.EOF`, which `io.CopyBuffer` compares against by
identity, or any other error, known by its text. -/
inductive Err where
  | eof
  | msg (text : String)
deriving DecidableEq, Repr

/-- Method `Error()` of an error value. -/
def Err.Error : Err → String
  | Err.eof => "EOF"
  | Err.msg text => text

/-- Value `io.EOF`. -/
def EOF : Err := Err.eof

/-- Value `io.ErrShortWrite`. -/
def ErrShortWrite : Err := Err.msg "short write"

/-- The unexported `io.errInvalidWrite`. -/
def errInvalidWrite : Err := Err.msg "invalid write result"

/-- Constant `io.SeekStart`. -/
def SeekStart : Nat := 0

/-- Constant `io.SeekCurrent`. -/
def SeekCurrent : Nat := 1

/-- Constant `io.SeekEnd`. -/
def SeekEnd : Nat := 2

/-! ## Fault plans -/

/-- Fault plan of one kind of operation: `none` never fails, `some (k, e)`
lets `k` calls through and fails the next one with an error of text `e`
(an I/O fault, never the value `io.EOF`). -/
abbrev Plan := Option (Nat × String)

/-- Consume one call of a plan: the error of this call, and the plan left. -/
def Plan.tick : Plan → Option Err × Plan
  | none => (none, none)
  | some (0, e) => (some (Err.msg e), none)
  | some (k + 1, e) => (none, some (k, e))

/-- Fault plans of a file handle, one per operation. -/
structure Faults where
  readPlan : Plan
  writePlan : Plan
  seekPlan : Plan
  statErr : Option String
  closeErr : Option String
deriving DecidableEq, Repr

/-- The fault plan under which no operation fails. -/
def Faults.none : Faults := ⟨Option.none, Option.none, Option.none, Option.none, Option.none⟩

/-! ## `os.File` / `multipart.File` -/

/-- An open file handle: the bytes of the file, the read/write offset and
the handle's fault plan. -/
structure File where
  content : List Nat
  pos : Nat
  faults : Faults
deriving DecidableEq, Repr

/-- Bytes at or after the current offset. -/
def File.remaining (f : File) : List Nat := f.content.drop f.pos

/-- Method `(*os.File).Read(b)`: returns `(n, err, b, file)` with the buffer and
the handle as they are after the call. A read into an empty buffer returns
`0, nil`; at end of file it returns `0, io.EOF`; otherwise it fills the
front of `b` with `min (len b) remaining` bytes, as a read of a regular
file does, leaves the rest of `b` as it was, and advances the offset. -/
def File.Read (f : File) (b : List Nat) : Nat × Option Err × List Nat × File :=
  if b = [] then (0, none, b, f)
  else
    match f.faults.readPlan.tick with
    | (some e, p) => (0, some e, b, { f with faults := { f.faults with readPlan := p } })
    | (none, p) =>
      let data := f.remaining.take b.length
      if data = [] then
        (0, some EOF, b, { f with faults := { f.faults with readPlan := p } })
      else
        (data.length, none, data ++ b.drop data.length,
          { f with pos := f.pos + data.length, faults := { f.faults with readPlan := p } })

/-- Method `(*os.File).Write(b)`: returns `(n, err, file)`. The bytes are
written at the current offset (overwriting what is there, extending the
file past its end) and the offset advances. -/
def File.Write (f : File) (b : List Nat) : Nat × Option Err × File :=
  match f.faults.writePlan.tick with
  | (some e, p) => (0, some e, { f with faults := { f.faults with writePlan := p } })
  | (none, p) =>
    (b.length, none,
      { f with
        content := f.content.take f.pos ++ List.replicate (f.pos - f.content.length) 0 ++ b
          ++ f.content.drop (f.pos + b.length),
        pos := f.pos + b.length,
        faults := { f.faults with writePlan := p } })

/-- Method `(*os.File).Seek(offset, whence)`: returns `(ret, err, file)`. -/
def File.Seek (f : File) (offset : Int) (whence : Nat) : Int × Option Err × File :=
  match f.faults.seekPlan.tick with
  | (some e, p) => (0, some e, { f with faults := { f.faults with seekPlan := p } })
  | (none, p) =>
    let f1 : File := { f with faults := { f.faults with seekPlan := p } }
    if 2 < whence then (0, some (Err.msg "invalid argument"), f1)
    else
      let base : Int :=
        if whence = SeekStart then 0
        else if whence = SeekCurrent then (f.pos : Int)
        else (f.content.length : Int)
      let abs := base + offset
      if abs < 0 then (0, some (Err.msg "invalid argument"), f1)
      else (abs, none, { f1 with pos := abs.toNat })

/-- Method `(*os.File).Stat()` followed by `Size()`: the size in bytes, or the error. -/
def File.Stat (f : File) : Int × Option Err :=
  match f.faults.statErr with
  | some e => (0, some (Err.msg e))
  | none => ((f.content.length : Int), none)

/-- Method `Close()` of a handle: the error of the close, if any. -/
def File.Close (f : File) : Option Err := f.faults.closeErr.map Err.msg

/-- Function `strconv.FormatInt(i, 10)`, also the rendering of `%d`. -/
def FormatInt (i : Int) : String :=
  match i with
  | Int.ofNat n => Nat.repr n
  | Int.negSucc n => "-" ++ Nat.repr (n + 1)

/-- The UTF-8 bytes of a Go string. -/
def utf8 (s : String) : List Nat := s.toUTF8.data.toList.map UInt8.toNat

/-! ## Content sniffer and size query (main.go:152-176) -/

/-- Function `getFileSize` (main.go:153-159). -/
def getFileSize (file : File) : String × Option Err :=
  match file.Stat with
  | (size, none) => (FormatInt size, none)
  | (_, some err) => (kEmptyString, some err)

/-- Function `getFileContentType` (main.go:162-176): returns the
classification, the error and the handle as it is left. `detect` is
`http.DetectContentType`. -/
def getFileContentType (detect : List Nat → String) (file : File) :
    String × Option Err × File :=
  let content := List.replicate kContentTypeSampleSize 0
  match file.Seek 0 SeekCurrent with
  | (offset, none, file1) =>
    match file1.Read content with
    | (_, none, content1, file2) =>
      let fileContentType := detect content1
      -- Rewind the file to its original location.
      match file2.Seek offset 0 with
      | (_, err, file3) => (fileContentType, err, file3)
    | (_, some err, _, file2) => (kEmptyString, some err, file2)
  | (_, some err, file1) => (kEmptyString, some err, file1)

/-! ## `http.ResponseWriter` and `http.Error` -/

/-- A response writer that records what the handler does to it: the live
header map, the status and header snapshot taken by the first
`WriteHeader` (explicit, or implied by the first `Write`), the body bytes
written, and the fault plan of `Write`. -/
structure ResponseWriter where
  header : List (String × String)
  committed : Option (Nat × List (String × String))
  body : List Nat
  writePlan : Plan
deriving DecidableEq, Repr

/-- A fresh response writer whose writes never fail. -/
def ResponseWriter.fresh : ResponseWriter := ⟨[], none, [], none⟩

/-- Method `Header.Set(key, value)`: replaces the value under `key`. -/
def headerSet (h : List (String × String)) (key value : String) : List (String × String) :=
  h.filter (fun kv => kv.1 ≠ key) ++ [(key, value)]

/-- Method `Header.Get(key)`. -/
def headerGet (h : List (String × String)) (key : String) : Option String :=
  (h.find? (fun kv => kv.1 = key)).map Prod.snd

/-- Call `w.Header().Set(key, value)`. -/
def ResponseWriter.SetHeader (w : ResponseWriter) (key value : String) : ResponseWriter :=
  { w with header := headerSet w.header key value }

/-- Method `WriteHeader(code)`: the first call fixes the status and the headers sent. -/
def ResponseWriter.WriteHeader (w : ResponseWriter) (code : Nat) : ResponseWriter :=
  match w.committed with
  | some _ => w
  | none => { w with committed := some (code, w.header) }

/-- Method `Write(b)`: returns `(n, err, w)`; implies `WriteHeader(200)` when no
header was written yet. -/
def ResponseWriter.Write (w : ResponseWriter) (b : List Nat) : Nat × Option Err × ResponseWriter :=
  let w1 := w.WriteHeader 200
  match w1.writePlan.tick with
  | (some e, p) => (0, some e, { w1 with writePlan := p })
  | (none, p) => (b.length, none, { w1 with body := w1.body ++ b, writePlan := p })

/-- Status of the response once the handler has returned (200 when the
handler never wrote a header). -/
def ResponseWriter.status (w : ResponseWriter) : Nat :=
  match w.committed with
  | some (code, _) => code
  | none => 200

/-- Headers of the response once the handler has returned. -/
def ResponseWriter.sentHeader (w : ResponseWriter) : List (String × String) :=
  match w.committed with
  | some (_, h) => h
  | none => w.header

/-- Call `fmt.Fprintf(w, ...)` with the formatted text `s`. -/
def Fprintf (w : ResponseWriter) (s : String) : ResponseWriter :=
  (w.Write (utf8 s)).2.2

/-- Function `http.Error(w, error, code)`: plain-text headers, the status,
then the message and a newline as body. (Recent Go versions also delete a
`Content-Length` set before; no statement below depends on that.) -/
def httpError (w : ResponseWriter) (error : String) (code : Nat) : ResponseWriter :=
  let w1 := w.SetHeader "Content-Type" "text/plain; charset=utf-8"
  let w2 := w1.SetHeader "X-Content-Type-Options" "nosniff"
  let w3 := w2.WriteHeader code
  Fprintf w3 (error ++ "\n")

/-- Constant `http.StatusBadRequest`. -/
def StatusBadRequest : Nat := 400

/-- Constant `http.StatusNotFound`. -/
def StatusNotFound : Nat := 404

/-- Constant `http.StatusInternalServerError`. -/
def StatusInternalServerError : Nat := 500

/-! ## `io.CopyBuffer` -/

/-- The `if nr > 0` block of the loop of `io.copyBuffer`: write the chunk,
add to the count; the error returned is the one that breaks the loop. -/
def writeChunk {ω : Type} (write : ω → List Nat → Nat × Option Err × ω)
    (dst : ω) (chunk : List Nat) (written : Nat) : Nat × Option Err × ω :=
  match write dst chunk with
  | (nw, ew, dst1) =>
    let nw1 := if chunk.length < nw then 0 else nw
    let ew1 := if chunk.length < nw then (if ew = none then some errInvalidWrite else ew) else ew
    match ew1 with
    | some e => (written + nw1, some e, dst1)
    | none =>
      if chunk.length ≠ nw1 then (written + nw1, some ErrShortWrite, dst1)
      else (written + nw1, none, dst1)

/-- The loop of `io.copyBuffer`: read a chunk into `buf`, write the filled
part, until a read returns an error; `io.EOF` ends the copy without
error. Returns `(written, err, dst, src)`. -/
def copyLoop {ω : Type} (write : ω → List Nat → Nat × Option Err × ω)
    (dst : ω) (src : File) (buf : List Nat) (hb : buf ≠ []) (written : Nat) :
    Nat × Option Err × ω × File :=
  match hr : src.Read buf with
  | (nr, some er, buf1, src1) =>
    match (if 0 < nr then writeChunk write dst (buf1.take nr) written else (written, none, dst)) with
    | (written1, some ew, dst1) => (written1, some ew, dst1, src1)
    | (written1, none, dst1) => (written1, if er = EOF then none else some er, dst1, src1)
  | (nr, none, buf1, src1) =>
    match (if 0 < nr then writeChunk write dst (buf1.take nr) written else (written, none, dst)) with
    | (written1, some ew, dst1) => (written1, some ew, dst1, src1)
    | (written1, none, dst1) =>
      have hbuf1 : buf1 ≠ [] := by
        unfold File.Read at hr
        split at hr
        · exact absurd (by assumption) hb
        · split at hr
          · simp at hr
          · dsimp only at hr
            split at hr
            · simp at hr
            · rename_i hd
              simp only [Prod.mk.injEq] at hr
              obtain ⟨_, _, h3, _⟩ := hr
              rw [← h3]
              exact fun h => hd (List.append_eq_nil.1 h).1
      copyLoop write dst1 src1 buf1 hbuf1 written1
termination_by src.content.length - src.pos
decreasing_by
  unfold File.Read at hr
  split at hr
  · exact absurd (by assumption) hb
  · split at hr
    · simp at hr
    · dsimp only at hr
      split at hr
      · simp at hr
      · rename_i hd
        simp only [Prod.mk.injEq] at hr
        obtain ⟨_, _, _, h4⟩ := hr
        rw [← h4]
        have hd1 := mt List.length_eq_zero.1 hd
        simp only [File.remaining, List.length_take, List.length_drop] at hd1 ⊢
        omega

/-- Function `io.CopyBuffer(dst, src, buf)`: returns `(written, err, dst, src)`.
Go panics on an empty buffer; the panic is rendered as an error result. -/
def CopyBuffer {ω : Type} (write : ω → List Nat → Nat × Option Err × ω)
    (dst : ω) (src : File) (buf : List Nat) : Nat × Option Err × ω × File :=
  if hb : buf = [] then (0, some (Err.msg "panic: empty buffer in CopyBuffer"), dst, src)
  else copyLoop write dst src buf hb 0

/-! ## The backing store, the request and the environment -/

/-- The flat file store: one content per name. -/
abbrev Store := List (String × List Nat)

/-- Content of the entry called `name`, if there is one. -/
def Store.lookup (s : Store) (name : String) : Option (List Nat) :=
  (s.find? (fun e => e.1 = name)).map Prod.snd

/-- Replace (or add) the entry called `name`. -/
def Store.put (s : Store) (name : String) (content : List Nat) : Store :=
  (name, content) :: s.filter (fun e => e.1 ≠ name)

/-- What the environment decides for one handler run: failures of
`os.Open` / `os.Create` that are not about the name itself, the fault
plans of the handles the handler obtains, and the names of the
sub-directories of the working directory. -/
structure Env where
  openErr : Option Err
  createErr : Option Err
  storedFaults : Faults
  destFaults : Faults
  formFaults : Faults
  dirs : List String
deriving DecidableEq, Repr

/-- The environment in which nothing fails and the working directory has
no sub-directory. -/
def Env.quiet : Env := ⟨none, none, Faults.none, Faults.none, Faults.none, []⟩

/-- Whether `name` names a directory rather than a file: `.` and `..`
always do, and so do the sub-directories the environment lists. -/
def isDirectory (env : Env) (name : String) : Bool :=
  name = "." || name = ".." || env.dirs.contains name

/-- The parts of `*http.Request` the handlers look at: the result of
`r.ParseForm()`, the result of `r.FormFile("afile")` (the client's
filename and the field's content, or the error), the result of
`r.Body.Close()`, and `chi.URLParam(r, "filename")`. -/
structure Request where
  parseFormErr : Option Err
  afile : Except Err (String × List Nat)
  bodyCloseErr : Option Err
  filename : String

/-- Function `os.Open(name)`: a read handle at offset 0 on the entry; for a
name that has no entry but names a directory, a handle on the directory,
which opens and then refuses to be read (`read <name>: is a directory`;
`fileDownload` reads it once at most); otherwise the absent-entry error. -/
def osOpen (env : Env) (store : Store) (name : String) : Except Err File :=
  match env.openErr with
  | some e => .error e
  | none =>
    match store.lookup name with
    | some content => .ok ⟨content, 0, env.storedFaults⟩
    | none =>
      if isDirectory env name then
        .ok ⟨[], 0, { env.storedFaults with
          readPlan := some (0, "read " ++ name ++ ": is a directory") }⟩
      else .error (Err.msg ("open " ++ name ++ ": no such file or directory"))

/-- Function `os.Create(name)`: creates the entry or truncates it, and returns
a handle at offset 0 with the store as it is then; or the error, the store
untouched. A directory cannot be created over. -/
def osCreate (env : Env) (store : Store) (name : String) : Except Err (File × Store) :=
  match env.createErr with
  | some e => .error e
  | none =>
    if isDirectory env name then .error (Err.msg ("open " ++ name ++ ": is a directory"))
    else .ok (⟨[], 0, env.destFaults⟩, store.put name [])

/-- Handles a handler acquires. -/
inductive Handle where
  | body
  | formFile
  | dest
  | stored
deriving DecidableEq, Repr

/-- Acquisitions and close attempts, logged in the order they happen. -/
inductive Event where
  | acquire (h : Handle)
  | close (h : Handle)
deriving DecidableEq, Repr

/-- What a handler run leaves behind: the response, the store and the log
of acquisitions and close attempts. -/
structure Outcome where
  w : ResponseWriter
  store : Store
  trace : List Event
deriving DecidableEq, Repr

/-- A deferred `func(h) { err := h.Close(); if err != nil { http.Error(w, err.Error(), 500) } }`
run on the outcome `o` of the code after the `defer` statement. -/
def deferredClose (h : Handle) (closeErr : Option Err) (o : Outcome) : Outcome :=
  match closeErr with
  | some err =>
    { o with w := httpError o.w err.Error StatusInternalServerError, trace := o.trace ++ [Event.close h] }
  | none => { o with trace := o.trace ++ [Event.close h] }

/-! ## The handlers (main.go:61-150) -/

/-- Function `fileUpload` (main.go:62-112). Writes of `os.File` go straight
to the entry, so the entry holds what the copy wrote whether the copy
failed or not. -/
def fileUpload (env : Env) (r : Request) (store : Store) (w : ResponseWriter) : Outcome :=
  deferredClose Handle.body r.bodyCloseErr <|
    match r.parseFormErr with
    | some err => ⟨httpError w err.Error StatusInternalServerError, store, [Event.acquire Handle.body]⟩
    | none =>
      match r.afile with
      | .error err =>
        ⟨httpError w err.Error StatusInternalServerError, store, [Event.acquire Handle.body]⟩
      | .ok (filename, content) =>
        let file : File := ⟨content, 0, env.formFaults⟩
        deferredClose Handle.formFile file.Close <|
          match osCreate env store filename with
          | .error err =>
            ⟨httpError w err.Error StatusInternalServerError, store,
              [Event.acquire Handle.body, Event.acquire Handle.formFile]⟩
          | .ok (out, store1) =>
            deferredClose Handle.dest out.Close <|
              -- Provide a buffer to optimize processing of chunks.
              let buf := List.replicate kChunkSize 0
              match CopyBuffer File.Write out file buf with
              | (l, none, out1, _) =>
                ⟨Fprintf w ("UPLOADED: File '" ++ filename ++ "' with " ++ FormatInt l ++ " bytes\n"),
                  store1.put filename out1.content,
                  [Event.acquire Handle.body, Event.acquire Handle.formFile, Event.acquire Handle.dest]⟩
              | (_, some err, out1, _) =>
                ⟨httpError w err.Error StatusInternalServerError,
                  store1.put filename out1.content,
                  [Event.acquire Handle.body, Event.acquire Handle.formFile, Event.acquire Handle.dest]⟩

/-- Function `fileDownload` (main.go:115-150). -/
def fileDownload (detect : List Nat → String) (env : Env) (r : Request) (store : Store)
    (w : ResponseWriter) : Outcome :=
  let filename := r.filename
  match osOpen env store filename with
  | .error err => ⟨httpError w err.Error StatusNotFound, store, []⟩
  | .ok file =>
    deferredClose Handle.stored file.Close <|
      -- Detect file content type using the first 512 bytes of file date.
      match getFileContentType detect file with
      | (fileContentType, none, file1) =>
        match getFileSize file1 with
        | (fileSize, none) =>
          -- Set the HTTP response headers.
          let w1 := w.SetHeader "Content-Type" (fileContentType ++ ";" ++ filename)
          let w2 := w1.SetHeader "Content-Length" fileSize
          let buf := List.replicate kChunkSize 0
          match CopyBuffer ResponseWriter.Write w2 file1 buf with
          | (_, none, w3, _) => ⟨w3, store, [Event.acquire Handle.stored]⟩
          | (_, some err, w3, _) =>
            ⟨httpError w3 err.Error StatusInternalServerError, store, [Event.acquire Handle.stored]⟩
        | (_, some err) =>
          ⟨httpError w err.Error StatusInternalServerError, store, [Event.acquire Handle.stored]⟩
      | (_, some err, _) =>
        ⟨httpError w err.Error StatusInternalServerError, store, [Event.acquire Handle.stored]⟩


/-! ## A fragment of `http.DetectContentType` -/

/-- Function `isWS` of the sniffer of `net/http`: tab, line feed, form feed,
carriage return, space. -/
def isWS (b : Nat) : Bool := b = 9 || b = 10 || b = 12 || b = 13 || b = 32

/-- The bytes the text rule of the sniffer (`textSig.match`) takes for binary data. -/
def isBinaryByte (b : Nat) : Bool :=
  b ≤ 8 || b = 11 || (14 ≤ b && b ≤ 26) || (28 ≤ b && b ≤ 31)

/-- The last two rules of `http.DetectContentType`, which decide every input
that matches none of its magic-number signatures: at most 512 bytes are
looked at; if no binary byte follows the leading whitespace the data is
`text/plain; charset=utf-8`, otherwise `application/octet-stream`. -/
def detectTextOrBinary (data : List Nat) : String :=
  if ((data.take 512).dropWhile isWS).any isBinaryByte then "application/octet-stream"
  else "text/plain; charset=utf-8"

/-! ## Vocabulary of the statements -/

/-- The line `http.Error` adds to the body for a failed close: nothing when
the close succeeded, the error text and a newline when it failed. -/
def closeErrorLine : Option Err → List Nat
  | none => []
  | some e => utf8 (e.Error ++ "\n")

/-- The error `os.Open` returns for `name` when the open fails: the
environment's error if it has one, else the absent-entry error. -/
def openError (env : Env) (name : String) : Err :=
  match env.openErr with
  | some e => e
  | none => Err.msg ("open " ++ name ++ ": no such file or directory")

/-- A non-empty buffer takes nothing from a list only when the list is empty. -/
theorem take_length_eq_nil_iff (l b : List Nat) (hb : b ≠ []) :
    l.take b.length = [] ↔ l = [] := by
  have hn : b.length ≠ 0 := mt List.length_eq_zero.1 hb
  cases l with
  | nil => simp
  | cons a t => simp [hn]

/-- The three ways a read into a non-empty buffer ends. -/
theorem File.Read_cases (f : File) (b : List Nat) (hb : b ≠ []) :
    (∃ e f1, f.Read b = (0, some (Err.msg e), b, f1) ∧ f.faults.readPlan ≠ none)
    ∨ (f.remaining = [] ∧ ∃ f1, f.Read b = (0, some Err.eof, b, f1) ∧
        f1.content = f.content ∧ f1.pos = f.pos ∧ (f.faults.readPlan = none → f1 = f))
    ∨ (f.remaining ≠ [] ∧ ∃ f1, f.Read b =
          ((f.remaining.take b.length).length, none,
            f.remaining.take b.length ++ b.drop (f.remaining.take b.length).length, f1) ∧
        f1.content = f.content ∧ f1.pos = f.pos + (f.remaining.take b.length).length ∧
        (f.faults.readPlan = none → f1.faults = f.faults)) := by
  obtain ⟨content, pos, ⟨rp, wp, sp, se, ce⟩⟩ := f
  unfold File.Read
  rw [if_neg hb]
  dsimp only
  rcases rp with _ | ⟨k, e⟩
  · simp only [Plan.tick]
    by_cases hd : List.take b.length (File.remaining ⟨content, pos, ⟨none, wp, sp, se, ce⟩⟩) = []
    · right; left
      rw [if_pos hd]
      refine ⟨(take_length_eq_nil_iff _ _ hb).1 hd, _, rfl, rfl, rfl, fun _ => rfl⟩
    · right; right
      rw [if_neg hd]
      refine ⟨fun h => hd (by rw [h]; simp), _, rfl, rfl, rfl, fun _ => rfl⟩
  · cases k with
    | zero =>
      left
      exact ⟨e, _, rfl, by simp⟩
    | succ k =>
      simp only [Plan.tick]
      by_cases hd : List.take b.length (File.remaining ⟨content, pos, ⟨some (k + 1, e), wp, sp, se, ce⟩⟩) = []
      · right; left
        rw [if_pos hd]
        refine ⟨(take_length_eq_nil_iff _ _ hb).1 hd, _, rfl, rfl, rfl, fun h => by simp at h⟩
      · right; right
        rw [if_neg hd]
        refine ⟨fun h => hd (by rw [h]; simp), _, rfl, rfl, rfl, fun h => by simp at h⟩

/-- A chunk written without error was written whole. -/
theorem writeChunk_no_error {ω : Type} (write : ω → List Nat → Nat × Option Err × ω)
    (dst : ω) (chunk : List Nat) (written : Nat)
    (h : (writeChunk write dst chunk written).2.1 = none) :
    (write dst chunk).2.1 = none ∧ (write dst chunk).1 = chunk.length ∧
      writeChunk write dst chunk written = (written + chunk.length, none, (write dst chunk).2.2) := by
  unfold writeChunk at h ⊢
  rcases hw : write dst chunk with ⟨nw, ew, dst1⟩
  rw [hw] at h
  dsimp only at h ⊢
  by_cases hlt : chunk.length < nw
  · simp only [hlt, if_true] at h
    cases ew with
    | none => simp [errInvalidWrite] at h
    | some e => simp at h
  · simp only [hlt, if_false] at h ⊢
    cases ew with
    | some e => simp at h
    | none =>
      dsimp only at h ⊢
      by_cases hne : chunk.length ≠ nw
      · rw [if_pos hne] at h
        simp at h
      · rw [if_neg hne]
        have : chunk.length = nw := by omega
        simp [this]

/-- A chunk the sink accepts whole and without error is counted in full. -/
theorem writeChunk_of_ok {ω : Type} (write : ω → List Nat → Nat × Option Err × ω)
    (dst : ω) (chunk : List Nat) (written : Nat)
    (h1 : (write dst chunk).2.1 = none) (h2 : (write dst chunk).1 = chunk.length) :
    writeChunk write dst chunk written = (written + chunk.length, none, (write dst chunk).2.2) := by
  unfold writeChunk
  rcases hw : write dst chunk with ⟨nw, ew, dst1⟩
  rw [hw] at h1 h2
  dsimp only at h1 h2 ⊢
  subst h1
  subst h2
  simp

/-- One turn of the loop when the read reports an error: the loop ends. -/
theorem copyLoop_read_err {ω : Type} (write : ω → List Nat → Nat × Option Err × ω)
    (dst : ω) (src : File) (buf : List Nat) (hb : buf ≠ []) (written : Nat)
    (er : Err) (src1 : File) (hr : src.Read buf = (0, some er, buf, src1)) :
    copyLoop write dst src buf hb written = (written, if er = EOF then none else some er, dst, src1) := by
  rw [copyLoop]
  split
  · rename_i nr er1 buf1 src2 heq
    rw [hr] at heq
    simp only [Prod.mk.injEq, Option.some.injEq] at heq
    obtain ⟨h1, h2, h3, h4⟩ := heq
    subst h1 h2 h3 h4
    simp
  · rename_i nr buf1 src2 heq
    rw [hr] at heq
    simp at heq

/-- One turn of the loop when the read fills part of the buffer. -/
theorem copyLoop_read_ok {ω : Type} (write : ω → List Nat → Nat × Option Err × ω)
    (dst : ω) (src : File) (buf : List Nat) (hb : buf ≠ []) (written : Nat)
    (data : List Nat) (hd : data ≠ []) (src1 : File)
    (hr : src.Read buf = (data.length, none, data ++ buf.drop data.length, src1)) :
    ∃ hlen : data ++ buf.drop data.length ≠ [],
      copyLoop write dst src buf hb written =
        match writeChunk write dst data written with
        | (written1, some ew, dst1) => (written1, some ew, dst1, src1)
        | (written1, none, dst1) =>
          copyLoop write dst1 src1 (data ++ buf.drop data.length) hlen written1 := by
  have hpos : 0 < data.length := List.length_pos.2 hd
  refine ⟨fun h => hd (List.append_eq_nil.1 h).1, ?_⟩
  rw [copyLoop]
  split
  · rename_i nr er1 buf1 src2 heq
    rw [hr] at heq
    simp at heq
  · rename_i nr buf1 src2 heq
    rw [hr] at heq
    simp only [Prod.mk.injEq, true_and] at heq
    obtain ⟨h1, h3, h4⟩ := heq
    subst h1 h3 h4
    simp only [hpos, if_true, List.take_left']

/-- The chunk taken followed by what is left after it is the whole list. -/
theorem take_append_drop_take_length (l : List Nat) (k : Nat) :
    l.take k ++ l.drop (l.take k).length = l := by
  rw [List.length_take]
  rcases Nat.le_total k l.length with h | h
  · rw [Nat.min_eq_left h, List.take_append_drop]
  · rw [Nat.min_eq_right h, List.take_of_length_le h, List.drop_length, List.append_nil]

/-- A copy that returns no error has moved every remaining byte of the
source, in order, to the sink, and counted them. The sink is any writer
that, while `inv` holds, appends what it accepts. -/
theorem copyLoop_complete {ω : Type} (write : ω → List Nat → Nat × Option Err × ω)
    (bytes : ω → List Nat) (inv : ω → Prop)
    (hs : ∀ s d, inv s → (write s d).2.1 = none → (write s d).1 = d.length →
      inv (write s d).2.2 ∧ bytes (write s d).2.2 = bytes s ++ d) :
    ∀ (n : Nat) (dst : ω) (src : File) (buf : List Nat) (hb : buf ≠ []) (written : Nat),
      src.remaining.length ≤ n → inv dst →
      (copyLoop write dst src buf hb written).2.1 = none →
      (copyLoop write dst src buf hb written).1 = written + src.remaining.length ∧
      bytes (copyLoop write dst src buf hb written).2.2.1 = bytes dst ++ src.remaining ∧
      inv (copyLoop write dst src buf hb written).2.2.1 := by
  intro n
  induction n with
  | zero =>
    intro dst src buf hb written hn hi h
    have hrem : src.remaining = [] := List.length_eq_zero.1 (Nat.le_zero.1 hn)
    rcases File.Read_cases src buf hb with ⟨e, f1, hr, _⟩ | ⟨_, f1, hr, _⟩ | ⟨hne, _⟩
    · rw [copyLoop_read_err write dst src buf hb written _ f1 hr] at h
      simp [EOF] at h
    · rw [copyLoop_read_err write dst src buf hb written _ f1 hr]
      simp [EOF, hrem, hi]
    · exact absurd hrem hne
  | succ m ih =>
    intro dst src buf hb written hn hi h
    rcases File.Read_cases src buf hb with ⟨e, f1, hr, _⟩ | ⟨hrem, f1, hr, _⟩ | ⟨hne, f1, hr, hc, hp, _⟩
    · rw [copyLoop_read_err write dst src buf hb written _ f1 hr] at h
      simp [EOF] at h
    · rw [copyLoop_read_err write dst src buf hb written _ f1 hr]
      simp [EOF, hrem, hi]
    · have hd : src.remaining.take buf.length ≠ [] :=
        fun h0 => hne ((take_length_eq_nil_iff src.remaining buf hb).1 h0)
      obtain ⟨hlen, heq⟩ := copyLoop_read_ok write dst src buf hb written _ hd f1 hr
      rw [heq] at h ⊢
      rcases hwc : writeChunk write dst (src.remaining.take buf.length) written with ⟨w1, ew, d1⟩
      rw [hwc] at h
      cases ew with
      | some e => simp at h
      | none =>
        dsimp only at h ⊢
        obtain ⟨hw1, hw2, hw3⟩ := writeChunk_no_error write dst _ written (by rw [hwc])
        rw [hwc] at hw3
        simp only [Prod.mk.injEq, true_and] at hw3
        obtain ⟨hw3a, hw3b⟩ := hw3
        obtain ⟨hi1, hby⟩ := hs dst _ hi hw1 hw2
        have hrem1 : f1.remaining = src.remaining.drop (src.remaining.take buf.length).length := by
          unfold File.remaining
          rw [hc, hp, List.drop_drop]
          congr 1
        have hsplit := take_append_drop_take_length src.remaining buf.length
        have h1 : 0 < (src.remaining.take buf.length).length := List.length_pos.2 hd
        have h2 := congrArg List.length hsplit
        rw [List.length_append, ← hrem1] at h2
        obtain ⟨r1, r2, r3⟩ := ih d1 f1 _ hlen w1 (by omega) (by rw [hw3b]; exact hi1) h
        refine ⟨?_, ?_, r3⟩
        · rw [r1, hw3a]
          omega
        · rw [r2, hw3b, hby, hrem1, List.append_assoc, hsplit]

/-- A copy from a source whose reads do not fail into a sink whose writes do
not fail returns no error. -/
theorem copyLoop_no_error {ω : Type} (write : ω → List Nat → Nat × Option Err × ω)
    (inv : ω → Prop)
    (hs : ∀ s d, inv s → (write s d).2.1 = none ∧ (write s d).1 = d.length ∧ inv (write s d).2.2) :
    ∀ (n : Nat) (dst : ω) (src : File) (buf : List Nat) (hb : buf ≠ []) (written : Nat),
      src.remaining.length ≤ n → src.faults.readPlan = none → inv dst →
      (copyLoop write dst src buf hb written).2.1 = none := by
  intro n
  induction n with
  | zero =>
    intro dst src buf hb written hn hp _
    have hrem : src.remaining = [] := List.length_eq_zero.1 (Nat.le_zero.1 hn)
    rcases File.Read_cases src buf hb with ⟨e, f1, _, hne⟩ | ⟨_, f1, hr, _⟩ | ⟨hne, _⟩
    · exact absurd hp hne
    · rw [copyLoop_read_err write dst src buf hb written _ f1 hr]
      simp [EOF]
    · exact absurd hrem hne
  | succ m ih =>
    intro dst src buf hb written hn hp hi
    rcases File.Read_cases src buf hb with ⟨e, f1, _, hne⟩ | ⟨hrem, f1, hr, _⟩ | ⟨hne, f1, hr, hc, hpos, hf⟩
    · exact absurd hp hne
    · rw [copyLoop_read_err write dst src buf hb written _ f1 hr]
      simp [EOF]
    · have hd : src.remaining.take buf.length ≠ [] :=
        fun h0 => hne ((take_length_eq_nil_iff src.remaining buf hb).1 h0)
      obtain ⟨hlen, heq⟩ := copyLoop_read_ok write dst src buf hb written _ hd f1 hr
      obtain ⟨hw1, hw2, hi1⟩ := hs dst (src.remaining.take buf.length) hi
      rw [heq, writeChunk_of_ok write dst _ written hw1 hw2]
      dsimp only
      have hrem1 : f1.remaining = src.remaining.drop (src.remaining.take buf.length).length := by
        unfold File.remaining
        rw [hc, hpos, List.drop_drop]
        congr 1
      have hsplit := take_append_drop_take_length src.remaining buf.length
      have h1 : 0 < (src.remaining.take buf.length).length := List.length_pos.2 hd
      have h2 := congrArg List.length hsplit
      rw [List.length_append, ← hrem1] at h2
      exact ih _ f1 _ hlen _ (by omega) (by rw [hf hp]; exact hp) hi1

/-- At end of file the loop returns at once: nothing is written, the count
is unchanged, there is no error. -/
theorem copyLoop_eof {ω : Type} (write : ω → List Nat → Nat × Option Err × ω)
    (dst : ω) (src : File) (buf : List Nat) (hb : buf ≠ []) (written : Nat)
    (hrem : src.remaining = []) (hp : src.faults.readPlan = none) :
    copyLoop write dst src buf hb written = (written, none, dst, src) := by
  rcases File.Read_cases src buf hb with ⟨e, f1, _, hne⟩ | ⟨_, f1, hr, _, _, hf⟩ | ⟨hne, _⟩
  · exact absurd hp hne
  · rw [copyLoop_read_err write dst src buf hb written _ f1 hr, hf hp]
    simp [EOF]
  · exact absurd hrem hne

/-- In append position, a write that is not planned to fail appends its bytes. -/
theorem File.Write_append (f : File) (d : List Nat) (hpos : f.pos = f.content.length)
    (hplan : f.faults.writePlan = none) :
    f.Write d = (d.length, none, ⟨f.content ++ d, f.pos + d.length, f.faults⟩) := by
  obtain ⟨content, pos, ⟨rp, wp, sp, se, ce⟩⟩ := f
  simp only at hpos hplan
  subst hpos hplan
  simp [File.Write, Plan.tick]

/-- A write to the response that returns no error appends its bytes to the
body, and fixes status 200 and the headers set so far if no header was
written before. -/
theorem responseWrite_no_error (w : ResponseWriter) (d : List Nat)
    (h : (w.Write d).2.1 = none) :
    (w.Write d).1 = d.length ∧ (w.Write d).2.2.body = w.body ++ d ∧
      (w.Write d).2.2.header = w.header ∧
      (w.Write d).2.2.committed = some (w.committed.getD (200, w.header)) := by
  obtain ⟨hdr, c, body, plan⟩ := w
  unfold ResponseWriter.Write at h ⊢
  cases c <;> rcases plan with _ | ⟨k, e⟩ <;> try cases k
  all_goals simp_all [ResponseWriter.WriteHeader, Plan.tick]

/-- The copy with a non-empty buffer is the loop started at count 0. -/
theorem CopyBuffer_eq_copyLoop {ω : Type} (write : ω → List Nat → Nat × Option Err × ω)
    (dst : ω) (src : File) (buf : List Nat) (hb : buf ≠ []) :
    CopyBuffer write dst src buf = copyLoop write dst src buf hb 0 := by
  unfold CopyBuffer
  rw [dif_neg hb]

/-- Claim C2. For every source (a file handle whose reads do not fail,
holding the remaining bytes `R`), every sink whose writes do not fail and
append what they are given, and every buffer of positive capacity, the
chunked copy `io.CopyBuffer` (a total function: it terminates) returns no
error, returns `len R` as the count and leaves the sink holding its
previous bytes followed by exactly `R`; when `R` is empty it returns
count 0 and no error and the sink is the one it was given, untouched. -/
theorem CopyBuffer_copies_all {ω : Type} (write : ω → List Nat → Nat × Option Err × ω)
    (bytes : ω → List Nat) (inv : ω → Prop)
    (hsink : ∀ s d, inv s → (write s d).2.1 = none ∧ (write s d).1 = d.length ∧
      inv (write s d).2.2 ∧ bytes (write s d).2.2 = bytes s ++ d)
    (dst : ω) (hdst : inv dst) (src : File) (hread : src.faults.readPlan = none)
    (buf : List Nat) (hbuf : 0 < buf.length) :
    (CopyBuffer write dst src buf).2.1 = none ∧
    (CopyBuffer write dst src buf).1 = src.remaining.length ∧
    bytes (CopyBuffer write dst src buf).2.2.1 = bytes dst ++ src.remaining ∧
    (src.remaining = [] → CopyBuffer write dst src buf = (0, none, dst, src)) := by
  have hb : buf ≠ [] := List.length_pos.1 hbuf
  rw [CopyBuffer_eq_copyLoop write dst src buf hb]
  have hne : (copyLoop write dst src buf hb 0).2.1 = none :=
    copyLoop_no_error write inv (fun s d hi => ⟨(hsink s d hi).1, (hsink s d hi).2.1, (hsink s d hi).2.2.1⟩)
      src.remaining.length dst src buf hb 0 (Nat.le_refl _) hread hdst
  have hall := copyLoop_complete write bytes inv
    (fun s d hi _ _ => ⟨(hsink s d hi).2.2.1, (hsink s d hi).2.2.2⟩)
    src.remaining.length dst src buf hb 0 (Nat.le_refl _) hdst hne
  refine ⟨hne, ?_, hall.2.1, fun hrem => copyLoop_eof write dst src buf hb 0 hrem hread⟩
  rw [hall.1, Nat.zero_add]

/-- Witness of C2: five bytes copied from offset 1 of a six-byte file into an
empty destination file through the `kChunkSize` buffer. -/
theorem CopyBuffer_copies_all_witness :
    (∀ (s : File) (d : List Nat), (s.pos = s.content.length ∧ s.faults.writePlan = none) →
      (s.Write d).2.1 = none ∧ (s.Write d).1 = d.length ∧
      ((s.Write d).2.2.pos = (s.Write d).2.2.content.length ∧ (s.Write d).2.2.faults.writePlan = none) ∧
      (s.Write d).2.2.content = s.content ++ d) ∧
    ((⟨[], 0, Faults.none⟩ : File).pos = (⟨[], 0, Faults.none⟩ : File).content.length ∧
      (⟨[], 0, Faults.none⟩ : File).faults.writePlan = none) ∧
    (⟨[7, 1, 2, 3, 4, 5], 1, Faults.none⟩ : File).faults.readPlan = none ∧
    0 < (List.replicate kChunkSize 0).length ∧
    ((CopyBuffer File.Write ⟨[], 0, Faults.none⟩ ⟨[7, 1, 2, 3, 4, 5], 1, Faults.none⟩
        (List.replicate kChunkSize 0)).2.1 = none ∧
      (CopyBuffer File.Write ⟨[], 0, Faults.none⟩ ⟨[7, 1, 2, 3, 4, 5], 1, Faults.none⟩
        (List.replicate kChunkSize 0)).1
        = (⟨[7, 1, 2, 3, 4, 5], 1, Faults.none⟩ : File).remaining.length ∧
      (CopyBuffer File.Write ⟨[], 0, Faults.none⟩ ⟨[7, 1, 2, 3, 4, 5], 1, Faults.none⟩
        (List.replicate kChunkSize 0)).2.2.1.content
        = (⟨[], 0, Faults.none⟩ : File).content ++ (⟨[7, 1, 2, 3, 4, 5], 1, Faults.none⟩ : File).remaining ∧
      ((⟨[7, 1, 2, 3, 4, 5], 1, Faults.none⟩ : File).remaining = [] →
        CopyBuffer File.Write ⟨[], 0, Faults.none⟩ ⟨[7, 1, 2, 3, 4, 5], 1, Faults.none⟩
          (List.replicate kChunkSize 0)
          = (0, none, ⟨[], 0, Faults.none⟩, ⟨[7, 1, 2, 3, 4, 5], 1, Faults.none⟩))) :=
  have hsink : ∀ (s : File) (d : List Nat), (s.pos = s.content.length ∧ s.faults.writePlan = none) →
      (s.Write d).2.1 = none ∧ (s.Write d).1 = d.length ∧
      ((s.Write d).2.2.pos = (s.Write d).2.2.content.length ∧ (s.Write d).2.2.faults.writePlan = none) ∧
      (s.Write d).2.2.content = s.content ++ d := by
    intro s d hi
    rw [File.Write_append s d hi.1 hi.2]
    simp [hi.1, hi.2]
  ⟨hsink, ⟨rfl, rfl⟩, rfl, by rw [List.length_replicate]; unfold kChunkSize; omega,
    CopyBuffer_copies_all File.Write File.content
      (fun s => s.pos = s.content.length ∧ s.faults.writePlan = none) hsink
      ⟨[], 0, Faults.none⟩ ⟨rfl, rfl⟩ ⟨[7, 1, 2, 3, 4, 5], 1, Faults.none⟩ rfl
      (List.replicate kChunkSize 0) (by rw [List.length_replicate]; unfold kChunkSize; omega)⟩

/-- A successful `Seek(0, io.SeekCurrent)` reports the offset and moves nothing. -/
theorem File.Seek_current (f : File) (o : Int) (f1 : File)
    (h : f.Seek 0 SeekCurrent = (o, none, f1)) :
    o = (f.pos : Int) ∧ f1.content = f.content ∧ f1.pos = f.pos := by
  unfold File.Seek at h
  split at h
  · simp at h
  · simp only [SeekCurrent, SeekStart, show ¬ (2 < 1) by omega, if_false, Nat.one_ne_zero,
      if_true, add_zero] at h
    split at h
    · simp at h
    · simp only [Prod.mk.injEq, true_and] at h
      obtain ⟨h1, h2⟩ := h
      subst h2
      exact ⟨h1.symm, rfl, by simp⟩

/-- A successful `Seek(o, io.SeekStart)` puts the offset at `o` and keeps the bytes. -/
theorem File.Seek_start (f : File) (o r : Int) (f1 : File)
    (h : f.Seek o 0 = (r, none, f1)) :
    f1.content = f.content ∧ f1.pos = o.toNat := by
  unfold File.Seek at h
  split at h
  · simp at h
  · simp only [SeekStart, show ¬ (2 < 0) by omega, if_false, if_true, zero_add] at h
    split at h
    · simp at h
    · simp only [Prod.mk.injEq, true_and] at h
      obtain ⟨_, h2⟩ := h
      subst h2
      exact ⟨rfl, rfl⟩

/-- A read never changes the bytes of the file. -/
theorem File.Read_content (f : File) (b : List Nat) :
    (f.Read b).2.2.2.content = f.content := by
  unfold File.Read
  split
  · rfl
  · split
    · rfl
    · dsimp only
      split <;> rfl

/-- A sniff that returns no error leaves the offset and the bytes as they
were, and there was at least one byte at or after the offset. -/
theorem getFileContentType_ok_frame (detect : List Nat → String) (file : File)
    (t : String) (file1 : File) (h : getFileContentType detect file = (t, none, file1)) :
    file1.pos = file.pos ∧ file1.content = file.content ∧ file.remaining ≠ [] := by
  have hk : List.replicate kContentTypeSampleSize 0 ≠ [] := by
    unfold kContentTypeSampleSize
    decide
  unfold getFileContentType at h
  dsimp only at h
  split at h
  · rename_i offset fa hs1
    obtain ⟨ho, hc1, hp1⟩ := File.Seek_current file offset fa hs1
    split at h
    · rename_i n content1 fb hrd
      have hc2 : fb.content = fa.content := by
        have := File.Read_content fa (List.replicate kContentTypeSampleSize 0)
        rw [hrd] at this
        exact this
      have hne : fa.remaining ≠ [] := by
        rcases File.Read_cases fa _ hk with ⟨e, f2, hr, _⟩ | ⟨_, f2, hr, _⟩ | ⟨hne, _⟩
        · rw [hr] at hrd; simp at hrd
        · rw [hr] at hrd; simp at hrd
        · exact hne
      simp only [Prod.mk.injEq] at h
      obtain ⟨_, h2, h3⟩ := h
      obtain ⟨hc3, hp3⟩ := File.Seek_start fb offset (fb.Seek offset 0).1 file1
        (by rw [← h2, ← h3])
      refine ⟨?_, ?_, ?_⟩
      · rw [hp3, ho]; simp
      · rw [hc3, hc2, hc1]
      · unfold File.remaining at hne ⊢
        rw [← hc1, ← hp1]
        exact hne
    · simp at h
  · simp at h

/-- Claim C3. Whenever `getFileContentType` returns a classification
without error, the handle's read offset is again the offset it had before
the call and the file's bytes are unchanged, so the bytes a full read
yields from there (the bytes at or after the offset) are the same as
without sniffing. -/
theorem getFileContentType_restores_offset (detect : List Nat → String) (file : File)
    (t : String) (file1 : File) (h : getFileContentType detect file = (t, none, file1)) :
    file1.pos = file.pos ∧ file1.content = file.content ∧ file1.remaining = file.remaining := by
  obtain ⟨hp, hc, _⟩ := getFileContentType_ok_frame detect file t file1 h
  exact ⟨hp, hc, by unfold File.remaining; rw [hp, hc]⟩

/-- At end of file (no byte at or after the offset) with no fault planned,
the sniffer returns the empty string and `io.EOF`. -/
theorem getFileContentType_at_eof (detect : List Nat → String) (content : List Nat) (pos : Nat)
    (h : content.length ≤ pos) :
    getFileContentType detect ⟨content, pos, Faults.none⟩
      = (kEmptyString, some Err.eof, ⟨content, pos, Faults.none⟩) := by
  have hd : List.drop pos content = [] := List.drop_eq_nil_of_le h
  have hk : kContentTypeSampleSize ≠ 0 := by unfold kContentTypeSampleSize; omega
  have hp : ¬ ((pos : Int) < 0) := by omega
  simp [getFileContentType, File.Seek, File.Read, File.remaining, Plan.tick, Faults.none,
    SeekCurrent, SeekStart, hd, hk, hp, EOF]

/-- With a byte at or after the offset and no fault planned, the sniffer
hands the detector the whole sample buffer: the bytes read followed by
the zeros the read did not overwrite. -/
theorem getFileContentType_sample (detect : List Nat → String) (content : List Nat) (pos : Nat)
    (h : pos < content.length) :
    getFileContentType detect ⟨content, pos, Faults.none⟩
      = (detect ((content.drop pos).take kContentTypeSampleSize
            ++ List.replicate
              (kContentTypeSampleSize - ((content.drop pos).take kContentTypeSampleSize).length) 0),
          none, ⟨content, pos, Faults.none⟩) := by
  have hk : kContentTypeSampleSize ≠ 0 := by unfold kContentTypeSampleSize; omega
  have hd : ¬ (content.length ≤ pos) := by omega
  have hd2 : ¬ (content.length - pos = 0) := by omega
  have hp : ¬ ((pos : Int) < 0) := by omega
  simp [getFileContentType, File.Seek, File.Read, File.remaining, Plan.tick, Faults.none,
    SeekCurrent, SeekStart, hk, hd, hd2, hp]

set_option maxRecDepth 100000

/-- Witness of C3: sniffing a two-byte file from offset 1. -/
theorem getFileContentType_restores_offset_witness :
    getFileContentType detectTextOrBinary ⟨[104, 105], 1, Faults.none⟩
        = ("application/octet-stream", none, ⟨[104, 105], 1, Faults.none⟩) ∧
      ((⟨[104, 105], 1, Faults.none⟩ : File).pos = (⟨[104, 105], 1, Faults.none⟩ : File).pos ∧
        (⟨[104, 105], 1, Faults.none⟩ : File).content = (⟨[104, 105], 1, Faults.none⟩ : File).content ∧
        (⟨[104, 105], 1, Faults.none⟩ : File).remaining
          = (⟨[104, 105], 1, Faults.none⟩ : File).remaining) :=
  have h : getFileContentType detectTextOrBinary ⟨[104, 105], 1, Faults.none⟩
      = ("application/octet-stream", none, ⟨[104, 105], 1, Faults.none⟩) := by decide
  ⟨h, getFileContentType_restores_offset detectTextOrBinary ⟨[104, 105], 1, Faults.none⟩
    "application/octet-stream" ⟨[104, 105], 1, Faults.none⟩ h⟩

/-- Claim C9, evaluated where it fails. When no byte remains at the offset
(for every content, with the offset at its end; the empty file at offset 0
is the case of empty content) and no fault is planned, `getFileContentType`
returns the empty string together with the error `io.EOF`, for every
detector: the zero-byte read is reported as a failure, not classified. -/
theorem getFileContentType_zero_remaining_is_error (detect : List Nat → String)
    (content : List Nat) :
    getFileContentType detect ⟨content, content.length, Faults.none⟩
        = (kEmptyString, some Err.eof, ⟨content, content.length, Faults.none⟩) ∧
      getFileContentType detect ⟨[], 0, Faults.none⟩
        = (kEmptyString, some Err.eof, ⟨[], 0, Faults.none⟩) :=
  ⟨getFileContentType_at_eof detect content content.length (Nat.le_refl _),
    getFileContentType_at_eof detect [] 0 (Nat.le_refl _)⟩

/-- The part of C9 the code keeps: with at least one byte at or after the
offset and no fault planned, a short read is classified without error. -/
theorem getFileContentType_short_read_ok (detect : List Nat → String) (content : List Nat)
    (pos : Nat) (h : pos < content.length) :
    (getFileContentType detect ⟨content, pos, Faults.none⟩).2.1 = none := by
  rw [getFileContentType_sample detect content pos h]

/-- Claim C10, evaluated where it fails. For the five-byte file `hello` read
from offset 0, `getFileContentType` applies the detector, whatever it is,
to the five bytes followed by the 507 zero bytes of the unfilled tail of
the sample buffer. For the text/binary rules of `http.DetectContentType`
this gives `application/octet-stream`, while the five bytes read are
`text/plain; charset=utf-8`. -/
theorem getFileContentType_classifies_whole_buffer :
    (∀ detect : List Nat → String,
      getFileContentType detect ⟨[104, 101, 108, 108, 111], 0, Faults.none⟩
        = (detect ([104, 101, 108, 108, 111] ++ List.replicate 507 0), none,
            ⟨[104, 101, 108, 108, 111], 0, Faults.none⟩)) ∧
      (getFileContentType detectTextOrBinary ⟨[104, 101, 108, 108, 111], 0, Faults.none⟩).1
        = "application/octet-stream" ∧
      detectTextOrBinary [104, 101, 108, 108, 111] = "text/plain; charset=utf-8" := by
  refine ⟨fun detect => ?_, by decide, by decide⟩
  rw [getFileContentType_sample detect [104, 101, 108, 108, 111] 0 (by decide)]
  rfl

/-- The status of a response whose header was written. -/
theorem ResponseWriter.status_of_committed (w : ResponseWriter) (code : Nat)
    (h : List (String × String)) (hc : w.committed = some (code, h)) : w.status = code := by
  unfold ResponseWriter.status
  rw [hc]

/-- The headers of a response whose header was written. -/
theorem ResponseWriter.sentHeader_of_committed (w : ResponseWriter) (code : Nat)
    (h : List (String × String)) (hc : w.committed = some (code, h)) : w.sentHeader = h := by
  unfold ResponseWriter.sentHeader
  rw [hc]

/-- What `http.Error` leaves on a writer on which no header was written
yet and whose writes do not fail: its two headers, the status, the
message line. -/
theorem httpError_uncommitted (w : ResponseWriter) (error : String) (code : Nat)
    (hc : w.committed = none) (hp : w.writePlan = none) :
    httpError w error code =
      ⟨headerSet (headerSet w.header "Content-Type" "text/plain; charset=utf-8")
          "X-Content-Type-Options" "nosniff",
        some (code, headerSet (headerSet w.header "Content-Type" "text/plain; charset=utf-8")
          "X-Content-Type-Options" "nosniff"),
        w.body ++ utf8 (error ++ "\n"), none⟩ := by
  obtain ⟨hdr, c, body, plan⟩ := w
  simp only at hc hp
  subst hc hp
  simp [httpError, Fprintf, ResponseWriter.SetHeader, ResponseWriter.WriteHeader,
    ResponseWriter.Write, Plan.tick]

/-- The status after `http.Error`: the code passed when no header was written
before, the status already fixed otherwise. -/
theorem httpError_status (w : ResponseWriter) (error : String) (code : Nat) :
    (httpError w error code).status = if w.committed = none then code else w.status := by
  obtain ⟨hdr, c, body, plan⟩ := w
  cases c <;> rcases plan with _ | ⟨k, e⟩ <;> try cases k
  all_goals simp [httpError, Fprintf, ResponseWriter.SetHeader, ResponseWriter.WriteHeader,
    ResponseWriter.Write, Plan.tick, ResponseWriter.status]

/-- After `http.Error` a header has been written. -/
theorem httpError_committed (w : ResponseWriter) (error : String) (code : Nat) :
    (httpError w error code).committed ≠ none := by
  obtain ⟨hdr, c, body, plan⟩ := w
  cases c <;> rcases plan with _ | ⟨k, e⟩ <;> try cases k
  all_goals simp [httpError, Fprintf, ResponseWriter.SetHeader, ResponseWriter.WriteHeader,
    ResponseWriter.Write, Plan.tick]

/-- A deferred close does not touch the store. -/
theorem deferredClose_store (h : Handle) (closeErr : Option Err) (o : Outcome) :
    (deferredClose h closeErr o).store = o.store := by
  unfold deferredClose
  cases closeErr <;> rfl

/-- A deferred close keeps a status that was already fixed. -/
theorem deferredClose_status (h : Handle) (closeErr : Option Err) (o : Outcome)
    (hc : o.w.committed ≠ none) :
    (deferredClose h closeErr o).w.status = o.w.status ∧
      (deferredClose h closeErr o).w.committed ≠ none := by
  unfold deferredClose
  cases closeErr with
  | none => exact ⟨rfl, hc⟩
  | some e =>
    refine ⟨?_, httpError_committed _ _ _⟩
    simp only [httpError_status, hc, if_false]

/-- Claim C7, as the code has it. When `r.ParseForm()` returns an error,
`fileUpload` answers with status 500 (`http.StatusInternalServerError`, the
server-side category) on a writer that had no header written, and leaves
the store as it was. -/
theorem fileUpload_parse_error_is_500 (env : Env) (r : Request) (store : Store)
    (w : ResponseWriter) (e : Err) (hparse : r.parseFormErr = some e)
    (hw : w.committed = none) :
    (fileUpload env r store w).w.status = StatusInternalServerError ∧
      (fileUpload env r store w).store = store := by
  unfold fileUpload
  rw [hparse]
  dsimp only
  refine ⟨?_, by rw [deferredClose_store]⟩
  rw [(deferredClose_status _ _ _ (httpError_committed _ _ _)).1]
  simp only [httpError_status, hw, if_true]

/-- Witness of C7 as amended: a request whose form does not parse. -/
theorem fileUpload_parse_error_is_500_witness :
    (⟨some (Err.msg "invalid URL escape"), .error (Err.msg "http: no such file"), none, ""⟩ :
        Request).parseFormErr = some (Err.msg "invalid URL escape") ∧
      ResponseWriter.fresh.committed = none ∧
      ((fileUpload Env.quiet
          ⟨some (Err.msg "invalid URL escape"), .error (Err.msg "http: no such file"), none, ""⟩
          [("kept", [1, 2])] ResponseWriter.fresh).w.status = StatusInternalServerError ∧
        (fileUpload Env.quiet
          ⟨some (Err.msg "invalid URL escape"), .error (Err.msg "http: no such file"), none, ""⟩
          [("kept", [1, 2])] ResponseWriter.fresh).store = [("kept", [1, 2])]) :=
  ⟨rfl, rfl, fileUpload_parse_error_is_500 Env.quiet _ _ ResponseWriter.fresh _ rfl rfl⟩

/-- Claim C7 as stated fails: for a request whose form does not parse the
status is 500, not 400 (`http.StatusBadRequest`). -/
theorem fileUpload_parse_error_not_400 :
    (⟨some (Err.msg "invalid URL escape"), .error (Err.msg "http: no such file"), none, ""⟩ :
        Request).parseFormErr ≠ none ∧
      (fileUpload Env.quiet
        ⟨some (Err.msg "invalid URL escape"), .error (Err.msg "http: no such file"), none, ""⟩
        [] ResponseWriter.fresh).w.status = 500 ∧
      (fileUpload Env.quiet
        ⟨some (Err.msg "invalid URL escape"), .error (Err.msg "http: no such file"), none, ""⟩
        [] ResponseWriter.fresh).w.status ≠ StatusBadRequest := by
  decide

/-- Opening a name that has no entry and names no directory fails. -/
theorem osOpen_missing (env : Env) (store : Store) (name : String)
    (h : store.lookup name = none) (hdir : isDirectory env name = false) :
    osOpen env store name = .error (openError env name) := by
  unfold osOpen openError
  cases env.openErr with
  | some e => rfl
  | none => simp [h, hdir]

/-- Claim C6, as the code has it. When the requested name has no entry in
the store and names no directory (neither `.` nor `..` nor a
sub-directory), so that `os.Open` fails, `fileDownload` answers a fresh
writer with status 404; the response is exactly what `http.Error` writes
(its `text/plain` Content-Type and `nosniff` headers and the error text
as body), so it carries no Content-Length, not the file headers of a
download, and no file byte; the store is the one it was, and no handle
was opened. -/
theorem fileDownload_missing_is_404 (detect : List Nat → String) (env : Env) (r : Request)
    (store : Store) (hmiss : store.lookup r.filename = none)
    (hdir : isDirectory env r.filename = false) :
    (fileDownload detect env r store ResponseWriter.fresh).w.status = StatusNotFound ∧
    (fileDownload detect env r store ResponseWriter.fresh).w.sentHeader
      = [("Content-Type", "text/plain; charset=utf-8"), ("X-Content-Type-Options", "nosniff")] ∧
    headerGet (fileDownload detect env r store ResponseWriter.fresh).w.sentHeader "Content-Length"
      = none ∧
    (fileDownload detect env r store ResponseWriter.fresh).w.body
      = utf8 ((openError env r.filename).Error ++ "\n") ∧
    (fileDownload detect env r store ResponseWriter.fresh).store = store ∧
    (fileDownload detect env r store ResponseWriter.fresh).trace = [] := by
  have h : fileDownload detect env r store ResponseWriter.fresh
      = ⟨httpError ResponseWriter.fresh (openError env r.filename).Error StatusNotFound,
          store, []⟩ := by
    unfold fileDownload
    simp only [osOpen_missing env store r.filename hmiss hdir]
  rw [h, httpError_uncommitted _ _ _ rfl rfl]
  refine ⟨rfl, ?_, ?_, ?_, rfl, rfl⟩
  · simp [ResponseWriter.sentHeader, ResponseWriter.fresh, headerSet]
  · simp [ResponseWriter.sentHeader, ResponseWriter.fresh, headerSet, headerGet]
  · simp [ResponseWriter.fresh]

/-- Witness of C6 as amended: a store with one entry, asked for another
name that is no directory. -/
theorem fileDownload_missing_is_404_witness :
    Store.lookup [("present.txt", [1, 2, 3])] (⟨none, .error (Err.msg "unused"), none, "absent.txt"⟩ : Request).filename = none ∧
    isDirectory Env.quiet (⟨none, .error (Err.msg "unused"), none, "absent.txt"⟩ : Request).filename
      = false ∧
    ((fileDownload detectTextOrBinary Env.quiet ⟨none, .error (Err.msg "unused"), none, "absent.txt"⟩
        [("present.txt", [1, 2, 3])] ResponseWriter.fresh).w.status = StatusNotFound ∧
    (fileDownload detectTextOrBinary Env.quiet ⟨none, .error (Err.msg "unused"), none, "absent.txt"⟩
        [("present.txt", [1, 2, 3])] ResponseWriter.fresh).w.sentHeader
      = [("Content-Type", "text/plain; charset=utf-8"), ("X-Content-Type-Options", "nosniff")] ∧
    headerGet (fileDownload detectTextOrBinary Env.quiet
        ⟨none, .error (Err.msg "unused"), none, "absent.txt"⟩
        [("present.txt", [1, 2, 3])] ResponseWriter.fresh).w.sentHeader "Content-Length"
      = none ∧
    (fileDownload detectTextOrBinary Env.quiet ⟨none, .error (Err.msg "unused"), none, "absent.txt"⟩
        [("present.txt", [1, 2, 3])] ResponseWriter.fresh).w.body
      = utf8 ((openError Env.quiet "absent.txt").Error ++ "\n") ∧
    (fileDownload detectTextOrBinary Env.quiet ⟨none, .error (Err.msg "unused"), none, "absent.txt"⟩
        [("present.txt", [1, 2, 3])] ResponseWriter.fresh).store = [("present.txt", [1, 2, 3])] ∧
    (fileDownload detectTextOrBinary Env.quiet ⟨none, .error (Err.msg "unused"), none, "absent.txt"⟩
        [("present.txt", [1, 2, 3])] ResponseWriter.fresh).trace = []) :=
  ⟨by decide, by decide, fileDownload_missing_is_404 detectTextOrBinary Env.quiet
    ⟨none, .error (Err.msg "unused"), none, "absent.txt"⟩ [("present.txt", [1, 2, 3])]
    (by decide) (by decide)⟩

/-- Claim C6 as stated fails: the name `.` has no entry in the store, yet
`os.Open` opens the working directory; the sniffer's read is refused, and
`fileDownload` answers status 500 with the read error as body, not 404,
having opened and closed a handle. -/
theorem fileDownload_directory_is_500 :
    Store.lookup [("present.txt", [1, 2, 3])]
        (⟨none, .error (Err.msg "unused"), none, "."⟩ : Request).filename = none ∧
    (fileDownload detectTextOrBinary Env.quiet ⟨none, .error (Err.msg "unused"), none, "."⟩
        [("present.txt", [1, 2, 3])] ResponseWriter.fresh).w.status = 500 ∧
    (fileDownload detectTextOrBinary Env.quiet ⟨none, .error (Err.msg "unused"), none, "."⟩
        [("present.txt", [1, 2, 3])] ResponseWriter.fresh).w.status ≠ StatusNotFound ∧
    (fileDownload detectTextOrBinary Env.quiet ⟨none, .error (Err.msg "unused"), none, "."⟩
        [("present.txt", [1, 2, 3])] ResponseWriter.fresh).w.body
      = utf8 "read .: is a directory\n" ∧
    (fileDownload detectTextOrBinary Env.quiet ⟨none, .error (Err.msg "unused"), none, "."⟩
        [("present.txt", [1, 2, 3])] ResponseWriter.fresh).trace
      = [Event.acquire Handle.stored, Event.close Handle.stored] := by
  decide

/-- The decimal text of a size or count that is not negative. -/
theorem FormatInt_natCast (n : Nat) : FormatInt (n : Int) = Nat.repr n := rfl

/-- In append position, a write that returns no error has appended its bytes
and is in append position again. -/
theorem fileWrite_no_error (f : File) (d : List Nat) (hpos : f.pos = f.content.length)
    (h : (f.Write d).2.1 = none) :
    (f.Write d).1 = d.length ∧ (f.Write d).2.2.content = f.content ++ d ∧
      (f.Write d).2.2.pos = (f.Write d).2.2.content.length := by
  obtain ⟨content, pos, ⟨rp, wp, sp, se, ce⟩⟩ := f
  simp only at hpos
  subst hpos
  unfold File.Write at h ⊢
  rcases wp with _ | ⟨k, e⟩ <;> try cases k
  all_goals simp_all [Plan.tick]

/-- The chunk buffer of the handlers is not empty. -/
theorem chunk_buffer_ne_nil : List.replicate kChunkSize 0 ≠ [] := by
  unfold kChunkSize
  decide

/-- A copy into a fresh destination file that returns no error has counted
and stored every byte of the source. -/
theorem CopyBuffer_to_file_complete (dst src : File) (buf : List Nat) (hb : buf ≠ [])
    (hpos : dst.pos = dst.content.length)
    (h : (CopyBuffer File.Write dst src buf).2.1 = none) :
    (CopyBuffer File.Write dst src buf).1 = src.remaining.length ∧
      (CopyBuffer File.Write dst src buf).2.2.1.content = dst.content ++ src.remaining := by
  rw [CopyBuffer_eq_copyLoop File.Write dst src buf hb] at h ⊢
  have := copyLoop_complete File.Write File.content (fun f => f.pos = f.content.length)
    (fun s d hi hne _ => ⟨(fileWrite_no_error s d hi hne).2.2, (fileWrite_no_error s d hi hne).2.1⟩)
    src.remaining.length dst src buf hb 0 (Nat.le_refl _) hpos h
  rw [Nat.zero_add] at this
  exact ⟨this.1, this.2.1⟩

/-- A copy into the response that returns no error has counted and sent
every byte of the source; the header map is the one it was; and if no
header had been written and the source was not empty, the first write
fixed status 200 with the headers set before the copy. -/
theorem CopyBuffer_to_response_complete (w : ResponseWriter) (src : File) (buf : List Nat)
    (hb : buf ≠ []) (hc : w.committed = none)
    (h : (CopyBuffer ResponseWriter.Write w src buf).2.1 = none) :
    (CopyBuffer ResponseWriter.Write w src buf).1 = src.remaining.length ∧
      (CopyBuffer ResponseWriter.Write w src buf).2.2.1.body = w.body ++ src.remaining ∧
      (CopyBuffer ResponseWriter.Write w src buf).2.2.1.header = w.header ∧
      (src.remaining ≠ [] →
        (CopyBuffer ResponseWriter.Write w src buf).2.2.1.committed = some (200, w.header)) := by
  rw [CopyBuffer_eq_copyLoop ResponseWriter.Write w src buf hb] at h ⊢
  have := copyLoop_complete ResponseWriter.Write ResponseWriter.body
    (fun x => x.header = w.header ∧
      ((x.body = w.body ∧ x.committed = none) ∨ x.committed = some (200, w.header)))
    (fun s d hi hne _ => by
      obtain ⟨_, h2, h3, h4⟩ := responseWrite_no_error s d hne
      refine ⟨⟨h3.trans hi.1, Or.inr ?_⟩, h2⟩
      rcases hi.2 with ⟨_, hn⟩ | hs
      · rw [h4, hn, hi.1]; rfl
      · rw [h4, hs]; rfl)
    src.remaining.length w src buf hb 0 (Nat.le_refl _) ⟨rfl, Or.inl ⟨rfl, hc⟩⟩ h
  rw [Nat.zero_add] at this
  obtain ⟨t1, t2, t3, t4⟩ := this
  refine ⟨t1, t2, t3, fun hne => ?_⟩
  rcases t4 with ⟨hb0, _⟩ | hs
  · rw [t2] at hb0
    exact absurd (List.append_right_eq_self.1 hb0) hne
  · exact hs

/-- The entry just put is the entry found. -/
theorem Store.lookup_put (s : Store) (name : String) (content : List Nat) :
    Store.lookup (Store.put s name content) name = some content := by
  simp [Store.lookup, Store.put]

/-- Formatted output on a writer with no header written and no write fault:
status 200 with the headers set so far, and the text appended. -/
theorem Fprintf_uncommitted (w : ResponseWriter) (text : String)
    (hc : w.committed = none) (hp : w.writePlan = none) :
    Fprintf w text = ⟨w.header, some (200, w.header), w.body ++ utf8 text, none⟩ := by
  obtain ⟨hdr, c, body, plan⟩ := w
  simp only at hc hp
  subst hc hp
  simp [Fprintf, ResponseWriter.WriteHeader, ResponseWriter.Write, Plan.tick]

/-- A deferred close that runs after the header was written, on a writer
whose writes do not fail: the status and the headers sent stay, and the
body grows by the error line of the close, if it failed. -/
theorem deferredClose_after_commit (h : Handle) (closeErr : Option Err) (o : Outcome)
    (c : Nat × List (String × String)) (hc : o.w.committed = some c)
    (hp : o.w.writePlan = none) :
    (deferredClose h closeErr o).w.committed = some c ∧
      (deferredClose h closeErr o).w.writePlan = none ∧
      (deferredClose h closeErr o).w.body = o.w.body ++ closeErrorLine closeErr ∧
      (deferredClose h closeErr o).store = o.store := by
  obtain ⟨⟨hdr, cm, body, plan⟩, st, tr⟩ := o
  simp only at hc hp
  subst hc hp
  cases closeErr with
  | none => simp [deferredClose, closeErrorLine]
  | some e =>
    simp [deferredClose, closeErrorLine, httpError, Fprintf, ResponseWriter.SetHeader,
      ResponseWriter.WriteHeader, ResponseWriter.Write, Plan.tick]

/-- The run of `fileUpload` once the form parsed, the field was found and
the destination was created: the three deferred closes around the copy. -/
theorem fileUpload_after_create (env : Env) (r : Request) (store : Store) (w : ResponseWriter)
    (name : String) (content : List Nat) (hparse : r.parseFormErr = none)
    (hfile : r.afile = .ok (name, content)) (hcreate : env.createErr = none)
    (hdir : isDirectory env name = false) :
    fileUpload env r store w =
      deferredClose Handle.body r.bodyCloseErr
        (deferredClose Handle.formFile (File.Close ⟨content, 0, env.formFaults⟩)
          (deferredClose Handle.dest (File.Close ⟨[], 0, env.destFaults⟩)
            (match CopyBuffer File.Write ⟨[], 0, env.destFaults⟩ ⟨content, 0, env.formFaults⟩
                (List.replicate kChunkSize 0) with
              | (l, none, out1, _) =>
                ⟨Fprintf w ("UPLOADED: File '" ++ name ++ "' with " ++ FormatInt l ++ " bytes\n"),
                  (store.put name []).put name out1.content,
                  [Event.acquire Handle.body, Event.acquire Handle.formFile,
                    Event.acquire Handle.dest]⟩
              | (_, some err, out1, _) =>
                ⟨httpError w err.Error StatusInternalServerError,
                  (store.put name []).put name out1.content,
                  [Event.acquire Handle.body, Event.acquire Handle.formFile,
                    Event.acquire Handle.dest]⟩))) := by
  unfold fileUpload
  simp [hparse, hfile, osCreate, hcreate, hdir]

/-- A copy between handles on which no read and no write is planned to
fail, into a file in append position, returns no error. -/
theorem CopyBuffer_to_file_quiet (dst src : File) (buf : List Nat) (hb : buf ≠ [])
    (hpos : dst.pos = dst.content.length) (hw : dst.faults.writePlan = none)
    (hr : src.faults.readPlan = none) :
    (CopyBuffer File.Write dst src buf).2.1 = none := by
  rw [CopyBuffer_eq_copyLoop File.Write dst src buf hb]
  refine copyLoop_no_error File.Write (fun f => f.pos = f.content.length ∧ f.faults.writePlan = none)
    ?_ src.remaining.length dst src buf hb 0 (Nat.le_refl _) hr ⟨hpos, hw⟩
  intro s d hi
  rw [File.Write_append s d hi.1 hi.2]
  simp [hi.1, hi.2]

/-- A copy from a handle on which no read is planned to fail into a
response on which no write is planned to fail returns no error. -/
theorem CopyBuffer_to_response_quiet (w : ResponseWriter) (src : File) (buf : List Nat)
    (hb : buf ≠ []) (hw : w.writePlan = none) (hr : src.faults.readPlan = none) :
    (CopyBuffer ResponseWriter.Write w src buf).2.1 = none := by
  rw [CopyBuffer_eq_copyLoop ResponseWriter.Write w src buf hb]
  refine copyLoop_no_error ResponseWriter.Write (fun x => x.writePlan = none)
    ?_ src.remaining.length w src buf hb 0 (Nat.le_refl _) hr hw
  intro s d hi
  obtain ⟨hdr, c, body, plan⟩ := s
  simp only at hi
  subst hi
  cases c <;> simp [ResponseWriter.Write, ResponseWriter.WriteHeader, Plan.tick]

/-- The outcome of `fileUpload` when parsing, field lookup, creation and
copy succeed, on a writer with nothing written and no write fault. -/
theorem fileUpload_success_outcome (env : Env) (r : Request) (store : Store)
    (w : ResponseWriter) (name : String) (content : List Nat)
    (hparse : r.parseFormErr = none) (hfile : r.afile = .ok (name, content))
    (hcreate : env.createErr = none) (hdir : isDirectory env name = false)
    (hcopy : (CopyBuffer File.Write ⟨[], 0, env.destFaults⟩ ⟨content, 0, env.formFaults⟩
      (List.replicate kChunkSize 0)).2.1 = none)
    (hw : w.committed = none) (hplan : w.writePlan = none) :
    (fileUpload env r store w).w.committed = some (200, w.header) ∧
    (fileUpload env r store w).w.body
      = w.body ++ utf8 ("UPLOADED: File '" ++ name ++ "' with " ++ Nat.repr content.length
          ++ " bytes\n")
        ++ closeErrorLine (env.destFaults.closeErr.map Err.msg)
        ++ closeErrorLine (env.formFaults.closeErr.map Err.msg)
        ++ closeErrorLine r.bodyCloseErr ∧
    (fileUpload env r store w).store = (store.put name []).put name content := by
  have hall := CopyBuffer_to_file_complete ⟨[], 0, env.destFaults⟩ ⟨content, 0, env.formFaults⟩
    (List.replicate kChunkSize 0) chunk_buffer_ne_nil rfl hcopy
  rw [fileUpload_after_create env r store w name content hparse hfile hcreate hdir]
  rcases hres : CopyBuffer File.Write ⟨[], 0, env.destFaults⟩ ⟨content, 0, env.formFaults⟩
    (List.replicate kChunkSize 0) with ⟨l, e, out1, src1⟩
  rw [hres] at hcopy hall
  simp only at hcopy hall
  subst hcopy
  obtain ⟨hl, hout⟩ := hall
  simp only [File.remaining, List.drop_zero, List.nil_append] at hl hout
  subst hl
  simp only [FormatInt_natCast, hout, File.Close]
  have h0 := Fprintf_uncommitted w
    ("UPLOADED: File '" ++ name ++ "' with " ++ Nat.repr content.length ++ " bytes\n") hw hplan
  rw [h0]
  obtain ⟨a1, a2, a3, a4⟩ := deferredClose_after_commit Handle.dest
    (env.destFaults.closeErr.map Err.msg)
    ⟨⟨w.header, some (200, w.header), w.body ++ utf8 ("UPLOADED: File '" ++ name ++ "' with "
        ++ Nat.repr content.length ++ " bytes\n"), none⟩,
      (store.put name []).put name content,
      [Event.acquire Handle.body, Event.acquire Handle.formFile, Event.acquire Handle.dest]⟩
    (200, w.header) rfl rfl
  obtain ⟨b1, b2, b3, b4⟩ := deferredClose_after_commit Handle.formFile
    (env.formFaults.closeErr.map Err.msg) _ (200, w.header) a1 a2
  obtain ⟨c1, c2, c3, c4⟩ := deferredClose_after_commit Handle.body r.bodyCloseErr _
    (200, w.header) b1 b2
  have hbody := c3
  rw [b3, a3] at hbody
  refine ⟨c1, hbody, ?_⟩
  rw [c4, b4, a4]

/-- Claim C5, as the code has it. When form parsing, the lookup of field
`afile` (filename `name`, content `content`), the creation of the
destination (`os.Create` returns no error: the environment raises none
and `name` is no directory) and the copy all succeed, and no deferred
close fails, `fileUpload` answers a writer that had nothing written (and
whose writes do not fail) with status 200 and a body that is exactly the
line `UPLOADED: File '<name>' with <len content> bytes`; and the store
then holds `content` under `name`, so the count reported is the number of
bytes persisted. -/
theorem fileUpload_success_response (env : Env) (r : Request) (store : Store)
    (w : ResponseWriter) (name : String) (content : List Nat)
    (hparse : r.parseFormErr = none) (hfile : r.afile = .ok (name, content))
    (hcreate : osCreate env store name = .ok (⟨[], 0, env.destFaults⟩, store.put name []))
    (hcopy : (CopyBuffer File.Write ⟨[], 0, env.destFaults⟩ ⟨content, 0, env.formFaults⟩
      (List.replicate kChunkSize 0)).2.1 = none)
    (hcloseDest : File.Close ⟨[], 0, env.destFaults⟩ = none)
    (hcloseForm : File.Close ⟨content, 0, env.formFaults⟩ = none)
    (hcloseBody : r.bodyCloseErr = none)
    (hw : w.committed = none) (hplan : w.writePlan = none) :
    (fileUpload env r store w).w.status = 200 ∧
    (fileUpload env r store w).w.body
      = w.body ++ utf8 ("UPLOADED: File '" ++ name ++ "' with " ++ Nat.repr content.length
          ++ " bytes\n") ∧
    Store.lookup (fileUpload env r store w).store name = some content := by
  have hce : env.createErr = none := by
    unfold osCreate at hcreate
    cases h : env.createErr with
    | none => rfl
    | some e => rw [h] at hcreate; simp at hcreate
  have hdir : isDirectory env name = false := by
    unfold osCreate at hcreate
    rw [hce] at hcreate
    cases h : isDirectory env name with
    | false => rfl
    | true => rw [h] at hcreate; simp at hcreate
  obtain ⟨hc, hbody, hstore⟩ :=
    fileUpload_success_outcome env r store w name content hparse hfile hce hdir hcopy hw hplan
  have h1 : env.destFaults.closeErr.map Err.msg = none := hcloseDest
  have h2 : env.formFaults.closeErr.map Err.msg = none := hcloseForm
  refine ⟨ResponseWriter.status_of_committed _ _ _ hc, ?_, ?_⟩
  · rw [hbody, h1, h2, hcloseBody]
    simp [closeErrorLine]
  · rw [hstore]
    exact Store.lookup_put _ _ _

/-- Witness of C5 as amended: two bytes uploaded as `a.txt` to an empty
store, nothing failing. -/
theorem fileUpload_success_response_witness :
    (⟨none, .ok ("a.txt", [104, 105]), none, ""⟩ : Request).parseFormErr = none ∧
    (⟨none, .ok ("a.txt", [104, 105]), none, ""⟩ : Request).afile = .ok ("a.txt", [104, 105]) ∧
    osCreate Env.quiet [] "a.txt"
      = .ok (⟨[], 0, Env.quiet.destFaults⟩, Store.put [] "a.txt" []) ∧
    (CopyBuffer File.Write ⟨[], 0, Env.quiet.destFaults⟩ ⟨[104, 105], 0, Env.quiet.formFaults⟩
      (List.replicate kChunkSize 0)).2.1 = none ∧
    File.Close ⟨[], 0, Env.quiet.destFaults⟩ = none ∧
    File.Close ⟨[104, 105], 0, Env.quiet.formFaults⟩ = none ∧
    (⟨none, .ok ("a.txt", [104, 105]), none, ""⟩ : Request).bodyCloseErr = none ∧
    ResponseWriter.fresh.committed = none ∧ ResponseWriter.fresh.writePlan = none ∧
    ((fileUpload Env.quiet ⟨none, .ok ("a.txt", [104, 105]), none, ""⟩ []
        ResponseWriter.fresh).w.status = 200 ∧
      (fileUpload Env.quiet ⟨none, .ok ("a.txt", [104, 105]), none, ""⟩ []
          ResponseWriter.fresh).w.body
        = ResponseWriter.fresh.body
          ++ utf8 ("UPLOADED: File '" ++ "a.txt" ++ "' with " ++ Nat.repr [104, 105].length
            ++ " bytes\n") ∧
      Store.lookup (fileUpload Env.quiet ⟨none, .ok ("a.txt", [104, 105]), none, ""⟩ []
        ResponseWriter.fresh).store "a.txt" = some [104, 105]) :=
  have hcopy : (CopyBuffer File.Write ⟨[], 0, Env.quiet.destFaults⟩
      ⟨[104, 105], 0, Env.quiet.formFaults⟩ (List.replicate kChunkSize 0)).2.1 = none :=
    CopyBuffer_to_file_quiet _ _ _ chunk_buffer_ne_nil rfl rfl rfl
  have hcreate : osCreate Env.quiet [] "a.txt"
      = .ok (⟨[], 0, Env.quiet.destFaults⟩, Store.put [] "a.txt" []) := rfl
  ⟨rfl, rfl, hcreate, hcopy, rfl, rfl, rfl, rfl, rfl,
    fileUpload_success_response Env.quiet ⟨none, .ok ("a.txt", [104, 105]), none, ""⟩ []
      ResponseWriter.fresh "a.txt" [104, 105] rfl rfl hcreate hcopy rfl rfl rfl rfl rfl⟩

/-- Claim C5 as stated fails: parsing, field lookup, creation and copy all
succeed and `r.Body.Close()` returns an error; the deferred handler of
main.go:63-69 then runs `http.Error` after the `UPLOADED` line was
written, and the body is that line followed by the text of the close
error, not the line alone. -/
theorem fileUpload_body_not_exact_when_close_fails :
    (⟨none, .ok ("a.txt", [104, 105]), some (Err.msg "close failed"), ""⟩ : Request).parseFormErr
      = none ∧
    (⟨none, .ok ("a.txt", [104, 105]), some (Err.msg "close failed"), ""⟩ : Request).afile
      = .ok ("a.txt", [104, 105]) ∧
    osCreate Env.quiet [] "a.txt"
      = .ok (⟨[], 0, Env.quiet.destFaults⟩, Store.put [] "a.txt" []) ∧
    (CopyBuffer File.Write ⟨[], 0, Env.quiet.destFaults⟩ ⟨[104, 105], 0, Env.quiet.formFaults⟩
      (List.replicate kChunkSize 0)).2.1 = none ∧
    (fileUpload Env.quiet ⟨none, .ok ("a.txt", [104, 105]), some (Err.msg "close failed"), ""⟩ []
        ResponseWriter.fresh).w.body
      = utf8 "UPLOADED: File 'a.txt' with 2 bytes\n" ++ utf8 "close failed\n" ∧
    (fileUpload Env.quiet ⟨none, .ok ("a.txt", [104, 105]), some (Err.msg "close failed"), ""⟩ []
        ResponseWriter.fresh).w.body
      ≠ utf8 ("UPLOADED: File '" ++ "a.txt" ++ "' with " ++ Nat.repr 2 ++ " bytes\n") := by
  have hcopy : (CopyBuffer File.Write ⟨[], 0, Env.quiet.destFaults⟩
      ⟨[104, 105], 0, Env.quiet.formFaults⟩ (List.replicate kChunkSize 0)).2.1 = none :=
    CopyBuffer_to_file_quiet _ _ _ chunk_buffer_ne_nil rfl rfl rfl
  have hout := (fileUpload_success_outcome Env.quiet
    ⟨none, .ok ("a.txt", [104, 105]), some (Err.msg "close failed"), ""⟩ []
    ResponseWriter.fresh "a.txt" [104, 105] rfl rfl rfl (by decide) hcopy rfl rfl).2.1
  refine ⟨rfl, rfl, rfl, hcopy, ?_, ?_⟩
  · rw [hout]
    decide
  · rw [hout]
    decide

/-- On a writer that has a header written, `http.Error` keeps the status and
headers that were fixed. -/
theorem httpError_keeps_committed (w : ResponseWriter) (error : String) (code : Nat)
    (c : Nat × List (String × String)) (hc : w.committed = some c) :
    (httpError w error code).committed = some c := by
  obtain ⟨hdr, cm, body, plan⟩ := w
  simp only at hc
  subst hc
  rcases plan with _ | ⟨k, e⟩ <;> try cases k
  all_goals simp [httpError, Fprintf, ResponseWriter.SetHeader, ResponseWriter.WriteHeader,
    ResponseWriter.Write, Plan.tick]

/-- A deferred close keeps the status and headers that were fixed, and when
the close succeeds it leaves the response as it was. -/
theorem deferredClose_response (h : Handle) (closeErr : Option Err) (o : Outcome)
    (c : Nat × List (String × String)) (hc : o.w.committed = some c) :
    (deferredClose h closeErr o).w.committed = some c ∧
      (closeErr = none → (deferredClose h closeErr o).w = o.w) := by
  unfold deferredClose
  cases closeErr with
  | none => exact ⟨hc, fun _ => rfl⟩
  | some e => exact ⟨httpError_keeps_committed _ _ _ c hc, fun h => by simp at h⟩

/-- Opening a name that has an entry, when the environment lets it. -/
theorem osOpen_present (env : Env) (store : Store) (name : String) (content : List Nat)
    (h : store.lookup name = some content) (hopen : env.openErr = none) :
    osOpen env store name = .ok ⟨content, 0, env.storedFaults⟩ := by
  unfold osOpen
  simp only [hopen, h]

/-- The size query on a handle whose `Stat` succeeds: the decimal length. -/
theorem getFileSize_ok (file : File) (h : (getFileSize file).2 = none) :
    getFileSize file = (Nat.repr file.content.length, none) := by
  unfold getFileSize File.Stat at h ⊢
  cases hs : file.faults.statErr with
  | none => simp [FormatInt_natCast]
  | some e => rw [hs] at h; simp at h

/-- The outcome of `fileDownload` on a writer with no header written when
the open, the sniff, the size query and the copy succeed. -/
theorem fileDownload_success_outcome (detect : List Nat → String) (env : Env) (r : Request)
    (store : Store) (w : ResponseWriter) (content : List Nat) (t : String) (f1 : File)
    (hentry : store.lookup r.filename = some content) (hopen : env.openErr = none)
    (hsniff : getFileContentType detect ⟨content, 0, env.storedFaults⟩ = (t, none, f1))
    (hsize : (getFileSize f1).2 = none)
    (hcopy : (CopyBuffer ResponseWriter.Write
      ((w.SetHeader "Content-Type" (t ++ ";" ++ r.filename)).SetHeader "Content-Length"
        (Nat.repr content.length)) f1 (List.replicate kChunkSize 0)).2.1 = none)
    (hw : w.committed = none) :
    content ≠ [] ∧
    (CopyBuffer ResponseWriter.Write
      ((w.SetHeader "Content-Type" (t ++ ";" ++ r.filename)).SetHeader "Content-Length"
        (Nat.repr content.length)) f1 (List.replicate kChunkSize 0)).1 = content.length ∧
    (fileDownload detect env r store w).w.committed
      = some (200, headerSet (headerSet w.header "Content-Type" (t ++ ";" ++ r.filename))
          "Content-Length" (Nat.repr content.length)) ∧
    (env.storedFaults.closeErr = none →
      (fileDownload detect env r store w).w.body = w.body ++ content) ∧
    (fileDownload detect env r store w).store = store := by
  obtain ⟨hp, hc, hne⟩ := getFileContentType_ok_frame detect _ t f1 hsniff
  simp only [File.remaining, List.drop_zero] at hne
  have hrem : f1.remaining = content := by
    unfold File.remaining
    rw [hp, hc]
    rfl
  have hsz := getFileSize_ok f1 hsize
  rw [hc] at hsz
  simp only at hsz
  obtain ⟨k1, k2, k3, k4⟩ := CopyBuffer_to_response_complete
    ((w.SetHeader "Content-Type" (t ++ ";" ++ r.filename)).SetHeader "Content-Length"
      (Nat.repr content.length)) f1 (List.replicate kChunkSize 0) chunk_buffer_ne_nil hw hcopy
  rw [hrem] at k1 k2 k4
  have hout : fileDownload detect env r store w =
      deferredClose Handle.stored (File.Close ⟨content, 0, env.storedFaults⟩)
        ⟨(CopyBuffer ResponseWriter.Write
          ((w.SetHeader "Content-Type" (t ++ ";" ++ r.filename)).SetHeader "Content-Length"
            (Nat.repr content.length)) f1 (List.replicate kChunkSize 0)).2.2.1,
          store, [Event.acquire Handle.stored]⟩ := by
    unfold fileDownload
    simp only [osOpen_present env store r.filename content hentry hopen, hsniff, hsz]
    rcases hres : CopyBuffer ResponseWriter.Write
      ((w.SetHeader "Content-Type" (t ++ ";" ++ r.filename)).SetHeader "Content-Length"
        (Nat.repr content.length)) f1 (List.replicate kChunkSize 0) with ⟨n, e, w3, s1⟩
    rw [hres] at hcopy
    simp only at hcopy
    subst hcopy
    rfl
  obtain ⟨d1, d2⟩ := deferredClose_response Handle.stored
    (File.Close ⟨content, 0, env.storedFaults⟩)
    ⟨(CopyBuffer ResponseWriter.Write
      ((w.SetHeader "Content-Type" (t ++ ";" ++ r.filename)).SetHeader "Content-Length"
        (Nat.repr content.length)) f1 (List.replicate kChunkSize 0)).2.2.1,
      store, [Event.acquire Handle.stored]⟩ _ (k4 hne)
  refine ⟨hne, k1, ?_, ?_, ?_⟩
  · rw [hout, d1]
    rfl
  · intro hcl
    rw [hout, d2 (by simp [File.Close, hcl])]
    exact k2
  · rw [hout, deferredClose_store]

/-- Claim C4. For an entry `content` stored under the requested name, when
the open, the sniff (returning type `t`), the size query and the copy all
succeed, `fileDownload` on a fresh writer has, at the first body write,
fixed status 200 and exactly the two headers `Content-Type: t;<name>` (one
joined value) and `Content-Length: <decimal len content>`; the size
string is the decimal entry size; the copy streams `len content` bytes
(at least one); and, the close succeeding too, the body is exactly
`content`. -/
theorem fileDownload_headers_and_length (detect : List Nat → String) (env : Env) (r : Request)
    (store : Store) (content : List Nat) (t : String) (f1 : File)
    (hentry : store.lookup r.filename = some content) (hopen : env.openErr = none)
    (hsniff : getFileContentType detect ⟨content, 0, env.storedFaults⟩ = (t, none, f1))
    (hsize : (getFileSize f1).2 = none)
    (hcopy : (CopyBuffer ResponseWriter.Write
      ((ResponseWriter.fresh.SetHeader "Content-Type" (t ++ ";" ++ r.filename)).SetHeader
        "Content-Length" (getFileSize f1).1) f1 (List.replicate kChunkSize 0)).2.1 = none) :
    (fileDownload detect env r store ResponseWriter.fresh).w.status = 200 ∧
    (fileDownload detect env r store ResponseWriter.fresh).w.sentHeader
      = [("Content-Type", t ++ ";" ++ r.filename), ("Content-Length", Nat.repr content.length)] ∧
    (getFileSize f1).1 = Nat.repr content.length ∧
    (CopyBuffer ResponseWriter.Write
      ((ResponseWriter.fresh.SetHeader "Content-Type" (t ++ ";" ++ r.filename)).SetHeader
        "Content-Length" (getFileSize f1).1) f1 (List.replicate kChunkSize 0)).1
      = content.length ∧
    content ≠ [] ∧
    (env.storedFaults.closeErr = none →
      (fileDownload detect env r store ResponseWriter.fresh).w.body = content) := by
  have hsz : (getFileSize f1).1 = Nat.repr content.length := by
    rw [getFileSize_ok f1 hsize, (getFileContentType_ok_frame detect _ t f1 hsniff).2.1]
  rw [hsz] at hcopy ⊢
  obtain ⟨h1, h2, h3, h4, _⟩ := fileDownload_success_outcome detect env r store
    ResponseWriter.fresh content t f1 hentry hopen hsniff hsize hcopy rfl
  have hhdr : headerSet (headerSet ResponseWriter.fresh.header "Content-Type"
      (t ++ ";" ++ r.filename)) "Content-Length" (Nat.repr content.length)
      = [("Content-Type", t ++ ";" ++ r.filename), ("Content-Length", Nat.repr content.length)] := by
    simp [headerSet, ResponseWriter.fresh]
  rw [hhdr] at h3
  refine ⟨?_, ?_, rfl, h2, h1, ?_⟩
  · simp only [ResponseWriter.status, h3]
  · simp only [ResponseWriter.sentHeader, h3]
  · intro hcl
    rw [h4 hcl]
    rfl

/-- Witness of C4: the two-byte entry `a.txt`, nothing failing. -/
theorem fileDownload_headers_and_length_witness :
    Store.lookup [("a.txt", [104, 105])]
        (⟨none, .error (Err.msg "unused"), none, "a.txt"⟩ : Request).filename = some [104, 105] ∧
    Env.quiet.openErr = none ∧
    getFileContentType detectTextOrBinary ⟨[104, 105], 0, Env.quiet.storedFaults⟩
      = ("application/octet-stream", none, ⟨[104, 105], 0, Faults.none⟩) ∧
    (getFileSize ⟨[104, 105], 0, Faults.none⟩).2 = none ∧
    (CopyBuffer ResponseWriter.Write
      ((ResponseWriter.fresh.SetHeader "Content-Type" ("application/octet-stream" ++ ";"
        ++ (⟨none, .error (Err.msg "unused"), none, "a.txt"⟩ : Request).filename)).SetHeader
        "Content-Length" (getFileSize ⟨[104, 105], 0, Faults.none⟩).1)
      ⟨[104, 105], 0, Faults.none⟩ (List.replicate kChunkSize 0)).2.1 = none ∧
    ((fileDownload detectTextOrBinary Env.quiet ⟨none, .error (Err.msg "unused"), none, "a.txt"⟩
        [("a.txt", [104, 105])] ResponseWriter.fresh).w.status = 200 ∧
      (fileDownload detectTextOrBinary Env.quiet ⟨none, .error (Err.msg "unused"), none, "a.txt"⟩
          [("a.txt", [104, 105])] ResponseWriter.fresh).w.sentHeader
        = [("Content-Type", "application/octet-stream" ++ ";"
            ++ (⟨none, .error (Err.msg "unused"), none, "a.txt"⟩ : Request).filename),
          ("Content-Length", Nat.repr [104, 105].length)] ∧
      (getFileSize ⟨[104, 105], 0, Faults.none⟩).1 = Nat.repr [104, 105].length ∧
      (CopyBuffer ResponseWriter.Write
        ((ResponseWriter.fresh.SetHeader "Content-Type" ("application/octet-stream" ++ ";"
          ++ (⟨none, .error (Err.msg "unused"), none, "a.txt"⟩ : Request).filename)).SetHeader
          "Content-Length" (getFileSize ⟨[104, 105], 0, Faults.none⟩).1)
        ⟨[104, 105], 0, Faults.none⟩ (List.replicate kChunkSize 0)).1 = [104, 105].length ∧
      [104, 105] ≠ [] ∧
      (Env.quiet.storedFaults.closeErr = none →
        (fileDownload detectTextOrBinary Env.quiet
          ⟨none, .error (Err.msg "unused"), none, "a.txt"⟩
          [("a.txt", [104, 105])] ResponseWriter.fresh).w.body = [104, 105])) :=
  have hsniff : getFileContentType detectTextOrBinary ⟨[104, 105], 0, Env.quiet.storedFaults⟩
      = ("application/octet-stream", none, ⟨[104, 105], 0, Faults.none⟩) := by decide
  have hcopy : (CopyBuffer ResponseWriter.Write
      ((ResponseWriter.fresh.SetHeader "Content-Type" ("application/octet-stream" ++ ";"
        ++ (⟨none, .error (Err.msg "unused"), none, "a.txt"⟩ : Request).filename)).SetHeader
        "Content-Length" (getFileSize ⟨[104, 105], 0, Faults.none⟩).1)
      ⟨[104, 105], 0, Faults.none⟩ (List.replicate kChunkSize 0)).2.1 = none :=
    CopyBuffer_to_response_quiet _ _ _ chunk_buffer_ne_nil rfl rfl
  ⟨by decide, rfl, hsniff, rfl, hcopy,
    fileDownload_headers_and_length detectTextOrBinary Env.quiet
      ⟨none, .error (Err.msg "unused"), none, "a.txt"⟩ [("a.txt", [104, 105])] [104, 105]
      "application/octet-stream" ⟨[104, 105], 0, Faults.none⟩ (by decide) rfl hsniff rfl hcopy⟩

/-- Round trip for content that is not empty: with nothing failing, a file
uploaded as `name` (no directory) and then downloaded by that name comes back with
status 200, a body equal to the content and a Content-Length that is the
decimal length. -/
theorem upload_then_download_nonempty (detect : List Nat → String) (store : Store)
    (name : String) (content : List Nat) (hne : content ≠ [])
    (hdir : isDirectory Env.quiet name = false) :
    (fileDownload detect Env.quiet ⟨none, .ok (name, content), none, name⟩
      (fileUpload Env.quiet ⟨none, .ok (name, content), none, name⟩ store
        ResponseWriter.fresh).store ResponseWriter.fresh).w.status = 200 ∧
    (fileDownload detect Env.quiet ⟨none, .ok (name, content), none, name⟩
      (fileUpload Env.quiet ⟨none, .ok (name, content), none, name⟩ store
        ResponseWriter.fresh).store ResponseWriter.fresh).w.body = content ∧
    headerGet (fileDownload detect Env.quiet ⟨none, .ok (name, content), none, name⟩
      (fileUpload Env.quiet ⟨none, .ok (name, content), none, name⟩ store
        ResponseWriter.fresh).store ResponseWriter.fresh).w.sentHeader "Content-Length"
      = some (Nat.repr content.length) := by
  have hup := (fileUpload_success_outcome Env.quiet ⟨none, .ok (name, content), none, name⟩ store
    ResponseWriter.fresh name content rfl rfl rfl hdir
    (CopyBuffer_to_file_quiet _ _ _ chunk_buffer_ne_nil rfl rfl rfl) rfl rfl).2.2
  rw [hup]
  have hpos : 0 < content.length := List.length_pos.2 hne
  have hsniff := getFileContentType_sample detect content 0 hpos
  obtain ⟨_, _, h3, h4, _⟩ := fileDownload_success_outcome detect Env.quiet
    ⟨none, .ok (name, content), none, name⟩ ((Store.put store name []).put name content)
    ResponseWriter.fresh content _ _ (Store.lookup_put _ _ _) rfl hsniff rfl
    (CopyBuffer_to_response_quiet _ _ _ chunk_buffer_ne_nil rfl rfl) rfl
  refine ⟨?_, ?_, ?_⟩
  · simp only [ResponseWriter.status, h3]
  · rw [h4 rfl]
    rfl
  · simp only [ResponseWriter.sentHeader, h3]
    simp [headerGet, headerSet, ResponseWriter.fresh]

/-- Downloading an entry that is empty, with nothing failing: the sniff
reports `io.EOF`, and the response is the one `http.Error` writes for it
with status 500. -/
theorem fileDownload_empty_entry (detect : List Nat → String) (r : Request) (store : Store)
    (hentry : store.lookup r.filename = some []) :
    (fileDownload detect Env.quiet r store ResponseWriter.fresh).w
      = ⟨[("Content-Type", "text/plain; charset=utf-8"), ("X-Content-Type-Options", "nosniff")],
          some (500, [("Content-Type", "text/plain; charset=utf-8"),
            ("X-Content-Type-Options", "nosniff")]),
          utf8 "EOF\n", none⟩ := by
  have hsniff : getFileContentType detect ⟨[], 0, Env.quiet.storedFaults⟩
      = (kEmptyString, some Err.eof, ⟨[], 0, Faults.none⟩) :=
    getFileContentType_at_eof detect [] 0 (Nat.le_refl _)
  have hout : fileDownload detect Env.quiet r store ResponseWriter.fresh
      = deferredClose Handle.stored (File.Close ⟨[], 0, Env.quiet.storedFaults⟩)
          ⟨httpError ResponseWriter.fresh Err.eof.Error StatusInternalServerError, store,
            [Event.acquire Handle.stored]⟩ := by
    unfold fileDownload
    simp only [osOpen_present Env.quiet store r.filename [] hentry rfl, hsniff]
  rw [hout, httpError_uncommitted _ _ _ rfl rfl]
  rfl

/-- Claim C1, evaluated where it fails. With nothing failing, the empty file
uploaded as `empty.bin` is accepted (status 200, `0 bytes` reported, an
empty entry stored), and downloading `empty.bin` from that store then
answers status 500 with body `EOF` and no Content-Length, for every
detector: not status 200 with an empty body and Content-Length 0. -/
theorem upload_then_download_empty_is_500 :
    (fileUpload Env.quiet ⟨none, .ok ("empty.bin", []), none, ""⟩ []
      ResponseWriter.fresh).w.status = 200 ∧
    (fileUpload Env.quiet ⟨none, .ok ("empty.bin", []), none, ""⟩ []
      ResponseWriter.fresh).w.body = utf8 "UPLOADED: File 'empty.bin' with 0 bytes\n" ∧
    Store.lookup (fileUpload Env.quiet ⟨none, .ok ("empty.bin", []), none, ""⟩ []
      ResponseWriter.fresh).store "empty.bin" = some [] ∧
    (∀ detect : List Nat → String,
      (fileDownload detect Env.quiet ⟨none, .error (Err.msg "unused"), none, "empty.bin"⟩
        (fileUpload Env.quiet ⟨none, .ok ("empty.bin", []), none, ""⟩ []
          ResponseWriter.fresh).store ResponseWriter.fresh).w.status = 500 ∧
      (fileDownload detect Env.quiet ⟨none, .error (Err.msg "unused"), none, "empty.bin"⟩
        (fileUpload Env.quiet ⟨none, .ok ("empty.bin", []), none, ""⟩ []
          ResponseWriter.fresh).store ResponseWriter.fresh).w.body = utf8 "EOF\n" ∧
      headerGet (fileDownload detect Env.quiet
        ⟨none, .error (Err.msg "unused"), none, "empty.bin"⟩
        (fileUpload Env.quiet ⟨none, .ok ("empty.bin", []), none, ""⟩ []
          ResponseWriter.fresh).store ResponseWriter.fresh).w.sentHeader "Content-Length"
        = none) := by
  obtain ⟨hc, hbody, hstore⟩ := fileUpload_success_outcome Env.quiet
    ⟨none, .ok ("empty.bin", []), none, ""⟩ [] ResponseWriter.fresh "empty.bin" [] rfl rfl rfl
    (by decide) (CopyBuffer_to_file_quiet _ _ _ chunk_buffer_ne_nil rfl rfl rfl) rfl rfl
  have hlook : Store.lookup (fileUpload Env.quiet ⟨none, .ok ("empty.bin", []), none, ""⟩ []
      ResponseWriter.fresh).store "empty.bin" = some [] := by
    rw [hstore]
    exact Store.lookup_put _ _ _
  refine ⟨ResponseWriter.status_of_committed _ _ _ hc, ?_, hlook, fun detect => ?_⟩
  · rw [hbody]
    decide
  · rw [fileDownload_empty_entry detect ⟨none, .error (Err.msg "unused"), none, "empty.bin"⟩
      _ hlook]
    decide

end GoChiRest
